import Mathlib

/-!
Verification of the normalization-and-mapping pipeline of the
CloudSecurityAnalyzer repository (files cs_kit/normalizer/parser.py,
cs_kit/normalizer/mapping.py, cs_kit/normalizer/summarize.py and
cs_kit/normalizer/ocsf_models.py), as a shallow embedding in Lean.

Raw finding records are arbitrary JSON-like trees; they are modelled by
the inductive type JValue below.  JSON numbers are modelled as integers:
no operation of the embedded code computes with numeric values, it only
tests their truthiness and coerces them to strings.  Python dictionaries
are modelled as association lists with the first binding of a key the
authoritative one; dictionaries built by the embedded code never contain
a duplicate key.
-/

namespace CSKit

/-- A JSON-like value as produced by json.load / yaml.safe_load. -/
inductive JValue where
  | null : JValue
  | bool : Bool → JValue
  | num : Int → JValue
  | str : String → JValue
  | arr : List JValue → JValue
  | obj : List (String × JValue) → JValue

/-- A raw finding record: a JSON object, i.e. a string-keyed mapping. -/
abbrev JObj := List (String × JValue)

/-- First binding of a key in an association list (Python dict lookup). -/
def objGet : JObj → String → Option JValue
  | [], _ => none
  | (k, v) :: rest, key => if k = key then some v else objGet rest key

/-- Python truthiness of a JSON-like value: None, False, 0, empty string,
empty list and empty dict are falsy, everything else is truthy. -/
def truthy : JValue → Bool
  | JValue.null => false
  | JValue.bool b => b
  | JValue.num n => n != 0
  | JValue.str s => s ≠ ""
  | JValue.arr xs => !xs.isEmpty
  | JValue.obj kvs => !kvs.isEmpty

mutual

/-- Python repr of a JSON-like value.  Quote-escaping inside string
values is elided: no value handled by the claims contains a quote. -/
def pyRepr : JValue → String
  | JValue.null => "None"
  | JValue.bool true => "True"
  | JValue.bool false => "False"
  | JValue.num n => toString n
  | JValue.str s => "\x27" ++ s ++ "\x27"
  | JValue.arr xs => "[" ++ pyReprArr xs ++ "]"
  | JValue.obj kvs => "\x7b" ++ pyReprObj kvs ++ "\x7d"

/-- Comma-separated reprs of the elements of a list. -/
def pyReprArr : List JValue → String
  | [] => ""
  | [x] => pyRepr x
  | x :: y :: xs => pyRepr x ++ ", " ++ pyReprArr (y :: xs)

/-- Comma-separated reprs of the entries of a dict. -/
def pyReprObj : List (String × JValue) → String
  | [] => ""
  | [(k, v)] => "\x27" ++ k ++ "\x27: " ++ pyRepr v
  | (k, v) :: e :: kvs => "\x27" ++ k ++ "\x27: " ++ pyRepr v ++ ", " ++ pyReprObj (e :: kvs)

end

/-- Python str() of a JSON-like value: the identity on strings, repr-like
on every other value (str of None, booleans, numbers, lists, dicts). -/
def pyStr : JValue → String
  | JValue.str s => s
  | v => pyRepr v

/-- _get_nested_value of parser.py: walk a key path, stopping with None
as soon as the current value is not a mapping or the key is missing. -/
def getNestedValue : JValue → List String → Option JValue
  | current, [] => some current
  | JValue.obj kvs, key :: rest =>
      match objGet kvs key with
      | some v => getNestedValue v rest
      | none => none
  | _, _ :: _ => none

/-- The common loop of the extractor functions of parser.py: try each
candidate path in order and return str() of the first truthy value. -/
def extractFromLocations (rawFinding : JObj) (locations : List (List String)) :
    Option String :=
  match locations with
  | [] => none
  | loc :: rest =>
      match getNestedValue (JValue.obj rawFinding) loc with
      | some value =>
          if truthy value then some (pyStr value)
          else extractFromLocations rawFinding rest
      | none => extractFromLocations rawFinding rest

/-- Candidate paths of _extract_resource_id (after the resources array). -/
def resourceIdLocations : List (List String) :=
  [["resource", "uid"], ["resource", "id"], ["resource_uid"],
   ["resource_id"], ["arn"], ["resource_arn"]]

/-- Candidate paths of _extract_account_id (after the resources array). -/
def accountIdLocations : List (List String) :=
  [["cloud", "account", "uid"], ["cloud", "account", "id"],
   ["account_uid"], ["account_id"], ["account"]]

/-- Candidate paths of _extract_region (after the resources array). -/
def regionLocations : List (List String) :=
  [["cloud", "region"], ["resource", "region"], ["region"]]

/-- Candidate paths of _extract_check_id. -/
def checkIdLocations : List (List String) :=
  [["finding", "uid"], ["finding", "id"], ["check_id"], ["rule_id"],
   ["uid"], ["id"]]

/-- Candidate paths of _extract_title. -/
def titleLocations : List (List String) :=
  [["finding", "title"], ["title"], ["summary"], ["name"]]

/-- Candidate paths of _extract_description. -/
def descriptionLocations : List (List String) :=
  [["finding", "desc"], ["finding", "description"], ["description"],
   ["desc"], ["message"]]

/-- Candidate paths of _extract_remediation. -/
def remediationLocations : List (List String) :=
  [["finding", "remediation", "desc"], ["finding", "remediation", "description"],
   ["remediation", "desc"], ["remediation", "description"], ["remediation"],
   ["recommendation"], ["fix"]]

/-- A Python runtime exception raised by the embedded code. -/
inductive PyErr where
  | typeError : PyErr
  | keyError : PyErr
  | validationError : PyErr
deriving DecidableEq

/-- Python len() on a JSON-like value: defined for sized values, a
TypeError otherwise. -/
def pyLen : JValue → Except PyErr Nat
  | JValue.str s => Except.ok s.length
  | JValue.arr xs => Except.ok xs.length
  | JValue.obj kvs => Except.ok kvs.length
  | _ => Except.error PyErr.typeError

/-- Python subscript value[0]: first element of a list, one-character
string for a nonempty string, KeyError for a dict without an integer
key, TypeError otherwise.  Only reached on values of positive length. -/
def pySubscriptZero : JValue → Except PyErr JValue
  | JValue.arr (x :: _) => Except.ok x
  | JValue.arr [] => Except.error PyErr.typeError
  | JValue.str s =>
      if s = "" then Except.error PyErr.typeError
      else Except.ok (JValue.str (String.singleton s.front))
  | JValue.obj _ => Except.error PyErr.keyError
  | _ => Except.error PyErr.typeError

/-- Whether a character list starts with a pattern. -/
def startsWithChars : List Char → List Char → Bool
  | _, [] => true
  | [], _ :: _ => false
  | a :: as, b :: bs => a = b && startsWithChars as bs

/-- Whether a pattern occurs inside a character list. -/
def containsChars : List Char → List Char → Bool
  | [], pat => pat.isEmpty
  | c :: rest, pat => startsWithChars (c :: rest) pat || containsChars rest pat

/-- Whether a string occurs as a substring of another. -/
def strContainsSub (s sub : String) : Bool := containsChars s.data sub.data

/-- Python membership test: key in container, for a string key.  Key
containment on dicts, substring test on strings, element equality on
lists, a TypeError on any other container. -/
def pyContains (container : JValue) (key : String) : Except PyErr Bool :=
  match container with
  | JValue.obj kvs => Except.ok ((objGet kvs key).isSome)
  | JValue.str s => Except.ok (strContainsSub s key)
  | JValue.arr xs =>
      Except.ok (xs.any (fun x => match x with
        | JValue.str s => s = key
        | _ => false))
  | _ => Except.error PyErr.typeError

/-- Python subscript container[key] for a string key: dict lookup;
lists and strings reject string subscripts with a TypeError. -/
def pyGetItemStr (container : JValue) (key : String) : Except PyErr JValue :=
  match container with
  | JValue.obj kvs =>
      match objGet kvs key with
      | some v => Except.ok v
      | none => Except.error PyErr.keyError
  | _ => Except.error PyErr.typeError

/-- _extract_resource_id of parser.py: first the resources array
(uid then name of its first element, selected by key presence), then
the candidate paths, first truthy value wins. -/
def extractResourceId (rawFinding : JObj) : Except PyErr (Option String) := do
  let resources := (objGet rawFinding "resources").getD (JValue.arr [])
  if truthy resources then
    let n ← pyLen resources
    if n > 0 then
      let firstResource ← pySubscriptZero resources
      let hasUid ← pyContains firstResource "uid"
      if hasUid then
        let v ← pyGetItemStr firstResource "uid"
        return some (pyStr v)
      else
        let hasName ← pyContains firstResource "name"
        if hasName then
          let v ← pyGetItemStr firstResource "name"
          return some (pyStr v)
        else
          return extractFromLocations rawFinding resourceIdLocations
    else
      return extractFromLocations rawFinding resourceIdLocations
  else
    return extractFromLocations rawFinding resourceIdLocations

/-- _extract_account_id of parser.py. -/
def extractAccountId (rawFinding : JObj) : Except PyErr (Option String) := do
  let resources := (objGet rawFinding "resources").getD (JValue.arr [])
  if truthy resources then
    let n ← pyLen resources
    if n > 0 then
      let firstResource ← pySubscriptZero resources
      let hasAcct ← pyContains firstResource "account_uid"
      if hasAcct then
        let v ← pyGetItemStr firstResource "account_uid"
        return some (pyStr v)
      else
        return extractFromLocations rawFinding accountIdLocations
    else
      return extractFromLocations rawFinding accountIdLocations
  else
    return extractFromLocations rawFinding accountIdLocations

/-- _extract_region of parser.py. -/
def extractRegion (rawFinding : JObj) : Except PyErr (Option String) := do
  let resources := (objGet rawFinding "resources").getD (JValue.arr [])
  if truthy resources then
    let n ← pyLen resources
    if n > 0 then
      let firstResource ← pySubscriptZero resources
      let hasRegion ← pyContains firstResource "region"
      if hasRegion then
        let v ← pyGetItemStr firstResource "region"
        return some (pyStr v)
      else
        return extractFromLocations rawFinding regionLocations
    else
      return extractFromLocations rawFinding regionLocations
  else
    return extractFromLocations rawFinding regionLocations

/-- _extract_check_id of parser.py. -/
def extractCheckId (rawFinding : JObj) : Option String :=
  extractFromLocations rawFinding checkIdLocations

/-- _extract_title of parser.py. -/
def extractTitle (rawFinding : JObj) : Option String :=
  extractFromLocations rawFinding titleLocations

/-- _extract_description of parser.py. -/
def extractDescription (rawFinding : JObj) : Option String :=
  extractFromLocations rawFinding descriptionLocations

/-- _extract_remediation of parser.py. -/
def extractRemediation (rawFinding : JObj) : Option String :=
  extractFromLocations rawFinding remediationLocations

/-- The canonical severity levels (the Literal type of ocsf_models.py). -/
inductive Severity where
  | critical | high | medium | low | informational
deriving DecidableEq

/-- The canonical status values (the Literal type of ocsf_models.py). -/
inductive Status where
  | pass | fail | not_applicable | informational
deriving DecidableEq

/-- The cloud providers (the Literal type of ocsf_models.py). -/
inductive Provider where
  | aws | gcp | azure
deriving DecidableEq

/-- The string form of a canonical severity. -/
def Severity.toStr : Severity → String
  | Severity.critical => "critical"
  | Severity.high => "high"
  | Severity.medium => "medium"
  | Severity.low => "low"
  | Severity.informational => "informational"

/-- The string form of a canonical status. -/
def Status.toStr : Status → String
  | Status.pass => "pass"
  | Status.fail => "fail"
  | Status.not_applicable => "not_applicable"
  | Status.informational => "informational"

/-- The string form of a provider. -/
def Provider.toStr : Provider → String
  | Provider.aws => "aws"
  | Provider.gcp => "gcp"
  | Provider.azure => "azure"

/-- Exact-match parsing of a severity literal, as the pydantic Literal
validator does on assignment (validate_assignment is on). -/
def sevOfString : String → Option Severity
  | "critical" => some Severity.critical
  | "high" => some Severity.high
  | "medium" => some Severity.medium
  | "low" => some Severity.low
  | "informational" => some Severity.informational
  | _ => none

/-- First binding of a string key in a plain association list. -/
def lookupPairs {α : Type} : List (String × α) → String → Option α
  | [], _ => none
  | (k, v) :: rest, key => if k = key then some v else lookupPairs rest key

/-- The severity synonym table of _normalize_severity, in the order of
the source dict. -/
def severityMap : List (String × Severity) :=
  [("critical", Severity.critical), ("crit", Severity.critical),
   ("high", Severity.high),
   ("medium", Severity.medium), ("med", Severity.medium),
   ("moderate", Severity.medium),
   ("low", Severity.low),
   ("info", Severity.informational), ("informational", Severity.informational),
   ("information", Severity.informational), ("notice", Severity.informational)]

/-- The status synonym table of _normalize_status, in the order of the
source dict. -/
def statusMap : List (String × Status) :=
  [("pass", Status.pass), ("passed", Status.pass), ("success", Status.pass),
   ("ok", Status.pass),
   ("fail", Status.fail), ("failed", Status.fail), ("failure", Status.fail),
   ("error", Status.fail),
   ("not_applicable", Status.not_applicable), ("n/a", Status.not_applicable),
   ("na", Status.not_applicable), ("skip", Status.not_applicable),
   ("skipped", Status.not_applicable),
   ("info", Status.informational), ("informational", Status.informational),
   ("information", Status.informational)]

/-- Python str.lower(), realized per character (like the core library,
ASCII case folding; the normalizer tables are pure ASCII). -/
def toLowerStr (s : String) : String := ⟨s.data.map Char.toLower⟩

/-- Python str.strip(): drop whitespace from both ends. -/
def trimStr (s : String) : String :=
  ⟨((s.data.dropWhile Char.isWhitespace).reverse.dropWhile Char.isWhitespace).reverse⟩

/-- str(x).lower().strip() of Python, for the ASCII values the
normalizer sees. -/
def lowerStrip (v : JValue) : String := trimStr (toLowerStr (pyStr v))

/-- _normalize_severity of parser.py: falsy values normalize to None,
anything else is lower-cased, trimmed and looked up in the table. -/
def normalizeSeverity (severity : JValue) : Option Severity :=
  if !truthy severity then none
  else lookupPairs severityMap (lowerStrip severity)

/-- _normalize_status of parser.py. -/
def normalizeStatus (status : JValue) : Option Status :=
  if !truthy status then none
  else lookupPairs statusMap (lowerStrip status)

/-- The canonical finding of ocsf_models.py (OCSFFinding).  Timestamps
are opaque instants modelled as integers; the extra="allow" sidecar of
unknown fields is not modelled, no embedded operation writes to it. -/
structure OCSFFinding where
  time : Int
  provider : Provider
  product : String
  class_uid : Option Int := none
  class_name : Option String := none
  severity : Option Severity := none
  status : Option Status := none
  resource_id : Option String := none
  account_id : Option String := none
  region : Option String := none
  check_id : Option String := none
  title : Option String := none
  description : Option String := none
  remediation : Option String := none
  raw : JObj := []

/-- The time-field logic of _parse_single_finding: a truthy string value
is parsed as ISO-8601 after replacing Z with +00:00, every failure or
non-string or falsy value falls back to the current UTC time.  The
ISO-8601 parser of the standard library and the current instant are
taken as parameters fromIso and now. -/
def parseTimeField (fromIso : String → Option Int) (now : Int)
    (rawFinding : JObj) : Int :=
  match objGet rawFinding "time" with
  | some v =>
      if truthy v then
        match v with
        | JValue.str s => (fromIso (s.replace "Z" "+00:00")).getD now
        | _ => now
      else now
  | none => now

/-- The pydantic validation of the class_uid field (int or None; numeric
strings are coerced in lax mode, booleans and other shapes rejected). -/
def validateOptionalInt : Option JValue → Except PyErr (Option Int)
  | none => Except.ok none
  | some JValue.null => Except.ok none
  | some (JValue.num n) => Except.ok (some n)
  | some (JValue.str s) =>
      match s.trim.toInt? with
      | some n => Except.ok (some n)
      | none => Except.error PyErr.validationError
  | some _ => Except.error PyErr.validationError

/-- The pydantic validation of an optional str field (str or None; no
coercion from other types). -/
def validateOptionalStr : Option JValue → Except PyErr (Option String)
  | none => Except.ok none
  | some JValue.null => Except.ok none
  | some (JValue.str s) => Except.ok (some s)
  | some _ => Except.error PyErr.validationError

/-- _parse_single_finding of parser.py: normalize one raw record into a
canonical finding.  Field extraction may raise (propagated as an error);
pydantic validation of the class fields happens at construction. -/
def parseSingleFinding (fromIso : String → Option Int) (now : Int)
    (rawFinding : JObj) (provider : Provider) (product : String) :
    Except PyErr OCSFFinding := do
  let time := parseTimeField fromIso now rawFinding
  let severity := normalizeSeverity ((objGet rawFinding "severity").getD JValue.null)
  let status := normalizeStatus ((objGet rawFinding "status").getD JValue.null)
  let resource_id ← extractResourceId rawFinding
  let account_id ← extractAccountId rawFinding
  let region ← extractRegion rawFinding
  let check_id := extractCheckId rawFinding
  let title := extractTitle rawFinding
  let description := extractDescription rawFinding
  let remediation := extractRemediation rawFinding
  let class_uid ← validateOptionalInt (objGet rawFinding "class_uid")
  let class_name ← validateOptionalStr (objGet rawFinding "class_name")
  return { time := time, provider := provider, product := product,
           class_uid := class_uid, class_name := class_name,
           severity := severity, status := status,
           resource_id := resource_id, account_id := account_id,
           region := region, check_id := check_id, title := title,
           description := description, remediation := remediation,
           raw := rawFinding }

/-- A single mapping rule (MappingRule of mapping.py). -/
structure MappingRule where
  source : String
  target : String
  title : String
  description : String
  severity : Option String := none
deriving DecidableEq

/-- A category of controls (MappingCategory of mapping.py). -/
structure MappingCategory where
  id : String
  name : String
  controls : List String
deriving DecidableEq

/-- Metadata of a mapping file (MappingMetadata of mapping.py); its
config is extra="allow", so unknown fields are retained in a sidecar. -/
structure MappingMetadata where
  created_date : Option String := none
  updated_date : Option String := none
  author : Option String := none
  source_url : Option String := none
  tags : List String := []
  extras : JObj := []

/-- A complete compliance rule set (ComplianceMapping of mapping.py). -/
structure ComplianceMapping where
  map_id : String
  name : String
  version : String
  description : String
  framework_type : String
  provider : Option String := none
  rules : List MappingRule
  categories : List MappingCategory := []
  metadata : Option MappingMetadata := none

/-- Errors of the mapping subsystem: MappingNotFoundError carrying the
available ids its message enumerates, MappingLoadError, and a pydantic
ValidationError escaping from a severity-override assignment. -/
inductive MapErr where
  | notFound (available : List String) : MapErr
  | loadError : MapErr
  | validationError : MapErr
deriving DecidableEq

/-- The outcome of reading one backing file and running yaml.safe_load
on it: either a syntax error or a parsed JSON-like value. -/
inductive YamlData where
  | malformed : YamlData
  | parsed (v : JValue) : YamlData

/-- The backing store of rule sets: the *.yaml files of the mappings
directory, keyed by file stem (the rule-set id). -/
abbrev MappingStore := List (String × YamlData)

/-- list_available_mappings of mapping.py: the sorted file stems. -/
def listAvailableMappings (store : MappingStore) : List String :=
  List.insertionSort (fun a b => a ≤ b) (store.map Prod.fst)

/-- pydantic validation of a required str field. -/
def requireStr (v : Option JValue) : Except MapErr String :=
  match v with
  | some (JValue.str s) => Except.ok s
  | _ => Except.error MapErr.loadError

/-- pydantic validation of a str-or-None field with default None. -/
def optionalStrField (v : Option JValue) : Except MapErr (Option String) :=
  match v with
  | none => Except.ok none
  | some JValue.null => Except.ok none
  | some (JValue.str s) => Except.ok (some s)
  | some _ => Except.error MapErr.loadError

/-- pydantic validation of a list[str] value. -/
def validateStrList (v : JValue) : Except MapErr (List String) :=
  match v with
  | JValue.arr xs => xs.mapM (fun x => match x with
      | JValue.str s => Except.ok s
      | _ => Except.error MapErr.loadError)
  | _ => Except.error MapErr.loadError

/-- The declared fields of MappingRule (extra="forbid"). -/
def mappingRuleKeys : List String :=
  ["source", "target", "title", "description", "severity"]

/-- pydantic validation of one MappingRule value. -/
def validateMappingRule (v : JValue) : Except MapErr MappingRule :=
  match v with
  | JValue.obj kvs =>
      if kvs.all (fun kv => mappingRuleKeys.contains kv.1) then do
        let source ← requireStr (objGet kvs "source")
        let target ← requireStr (objGet kvs "target")
        let title ← requireStr (objGet kvs "title")
        let description ← requireStr (objGet kvs "description")
        let severity ← optionalStrField (objGet kvs "severity")
        return { source := source, target := target, title := title,
                 description := description, severity := severity }
      else Except.error MapErr.loadError
  | _ => Except.error MapErr.loadError

/-- The declared fields of MappingCategory (extra="forbid"). -/
def mappingCategoryKeys : List String := ["id", "name", "controls"]

/-- pydantic validation of a required list[str] field. -/
def requireStrList (v : Option JValue) : Except MapErr (List String) :=
  match v with
  | some c => validateStrList c
  | none => Except.error MapErr.loadError

/-- pydantic validation of one MappingCategory value. -/
def validateMappingCategory (v : JValue) : Except MapErr MappingCategory :=
  match v with
  | JValue.obj kvs =>
      if kvs.all (fun kv => mappingCategoryKeys.contains kv.1) then do
        let cid ← requireStr (objGet kvs "id")
        let cname ← requireStr (objGet kvs "name")
        let controls ← requireStrList (objGet kvs "controls")
        return { id := cid, name := cname, controls := controls }
      else Except.error MapErr.loadError
  | _ => Except.error MapErr.loadError

/-- The declared fields of MappingMetadata (extra="allow"). -/
def metadataKnownKeys : List String :=
  ["created_date", "updated_date", "author", "source_url", "tags"]

/-- pydantic validation of a list[str] field with an empty default. -/
def optionalStrListField (v : Option JValue) : Except MapErr (List String) :=
  match v with
  | none => Except.ok []
  | some t => validateStrList t

/-- pydantic validation of a MappingMetadata value; unknown fields are
allowed and retained. -/
def validateMetadata (v : JValue) : Except MapErr MappingMetadata :=
  match v with
  | JValue.obj kvs => do
      let created ← optionalStrField (objGet kvs "created_date")
      let updated ← optionalStrField (objGet kvs "updated_date")
      let author ← optionalStrField (objGet kvs "author")
      let sourceUrl ← optionalStrField (objGet kvs "source_url")
      let tags ← optionalStrListField (objGet kvs "tags")
      return { created_date := created, updated_date := updated,
               author := author, source_url := sourceUrl, tags := tags,
               extras := kvs.filter (fun kv => !(metadataKnownKeys.contains kv.1)) }
  | _ => Except.error MapErr.loadError

/-- The declared top-level fields of ComplianceMapping (extra="forbid"). -/
def complianceMappingKeys : List String :=
  ["map_id", "name", "version", "description", "framework_type",
   "provider", "rules", "categories", "metadata"]

/-- pydantic validation of the required rules field (list[MappingRule]). -/
def requireRuleList (v : Option JValue) : Except MapErr (List MappingRule) :=
  match v with
  | some (JValue.arr xs) => xs.mapM validateMappingRule
  | _ => Except.error MapErr.loadError

/-- pydantic validation of the categories field, empty by default. -/
def optionalCategoryList (v : Option JValue) :
    Except MapErr (List MappingCategory) :=
  match v with
  | none => Except.ok []
  | some (JValue.arr xs) => xs.mapM validateMappingCategory
  | some _ => Except.error MapErr.loadError

/-- pydantic validation of the metadata field, None by default. -/
def optionalMetadataField (v : Option JValue) :
    Except MapErr (Option MappingMetadata) :=
  match v with
  | none => Except.ok none
  | some JValue.null => Except.ok none
  | some m => (fun md => some md) <$> validateMetadata m

/-- pydantic validation of a complete rule-set definition: required
string fields, typed rule and category lists, and rejection of any
unknown top-level field. -/
def validateComplianceMapping (kvs : JObj) : Except MapErr ComplianceMapping :=
  if kvs.all (fun kv => complianceMappingKeys.contains kv.1) then do
    let mapId ← requireStr (objGet kvs "map_id")
    let name ← requireStr (objGet kvs "name")
    let version ← requireStr (objGet kvs "version")
    let description ← requireStr (objGet kvs "description")
    let frameworkType ← requireStr (objGet kvs "framework_type")
    let provider ← optionalStrField (objGet kvs "provider")
    let rules ← requireRuleList (objGet kvs "rules")
    let categories ← optionalCategoryList (objGet kvs "categories")
    let metadata ← optionalMetadataField (objGet kvs "metadata")
    return { map_id := mapId, name := name, version := version,
             description := description, framework_type := frameworkType,
             provider := provider, rules := rules,
             categories := categories, metadata := metadata }
  else Except.error MapErr.loadError

/-- load_mapping of mapping.py: MappingNotFoundError with the available
ids when no such file exists; MappingLoadError on a YAML syntax error,
a non-mapping top-level value, or a shape-validation failure. -/
def loadMapping (store : MappingStore) (mapId : String) :
    Except MapErr ComplianceMapping :=
  match lookupPairs store mapId with
  | none => Except.error (MapErr.notFound (listAvailableMappings store))
  | some YamlData.malformed => Except.error MapErr.loadError
  | some (YamlData.parsed data) =>
      match data with
      | JValue.obj kvs => validateComplianceMapping kvs
      | _ => Except.error MapErr.loadError

/-- Detailed resource sub-object (OCSFResource of ocsf_models.py). -/
structure OCSFResource where
  uid : Option String := none
  type : Option String := none
  region : Option String := none
  name : Option String := none
  tags : List (String × String) := []

/-- Detailed cloud sub-object (OCSFCloud of ocsf_models.py). -/
structure OCSFCloud where
  provider : Provider
  account_uid : Option String := none
  region : Option String := none
  availability_zone : Option String := none

/-- Compliance sub-object (OCSFCompliance of ocsf_models.py). -/
structure OCSFCompliance where
  requirements : List String := []
  frameworks : List String := []

/-- The enriched finding (OCSFEnrichedFinding of ocsf_models.py).  The
risk_score field has type float in the source; it is modelled opaquely,
no embedded operation reads or writes it beyond its None default. -/
structure OCSFEnrichedFinding extends OCSFFinding where
  resource : Option OCSFResource := none
  cloud : Option OCSFCloud := none
  compliance : Option OCSFCompliance := none
  framework_refs : List String := []
  risk_score : Option Int := none
  tags : List (String × String) := []

/-- OCSFEnrichedFinding(**finding.model_dump()): the canonical fields
are copied, every enrichment field takes its declared default. -/
def toEnriched (f : OCSFFinding) : OCSFEnrichedFinding :=
  { toOCSFFinding := f }

/-- One entry of the check_to_controls lookup table of apply_mapping. -/
structure ControlInfo where
  framework : String
  control : String
  title : String
  description : String
  severity_override : Option String := none
deriving DecidableEq

/-- The dict entry built by apply_mapping for one rule. -/
def controlInfoOfRule (mapId : String) (rule : MappingRule) : ControlInfo :=
  { framework := mapId, control := rule.target, title := rule.title,
    description := rule.description, severity_override := rule.severity }

/-- Python dict assignment d[k] = v: replace in place if the key is
bound, append a new binding otherwise. -/
def dictInsert {α : Type} (d : List (String × α)) (k : String) (v : α) :
    List (String × α) :=
  if d.any (fun p => p.1 = k) then
    d.map (fun p => if p.1 = k then (p.1, v) else p)
  else d ++ [(k, v)]

/-- check_to_controls[key].append(ci), creating the empty list first
when the key is unbound. -/
def multiDictAppend (d : List (String × List ControlInfo)) (k : String)
    (ci : ControlInfo) : List (String × List ControlInfo) :=
  if d.any (fun p => p.1 = k) then
    d.map (fun p => if p.1 = k then (p.1, p.2 ++ [ci]) else p)
  else d ++ [(k, [ci])]

/-- The inner loop of apply_mapping over the rules of one rule set. -/
def addMappingRules (d : List (String × List ControlInfo)) (mapId : String)
    (rules : List MappingRule) : List (String × List ControlInfo) :=
  rules.foldl
    (fun acc rule => multiDictAppend acc rule.source (controlInfoOfRule mapId rule)) d

/-- The combined source-key index of apply_mapping, built by iterating
the loaded mappings dict in insertion order and, within each, the rules
in file order. -/
def buildCheckToControls (mappings : List (String × ComplianceMapping)) :
    List (String × List ControlInfo) :=
  mappings.foldl (fun acc p => addMappingRules acc p.1 p.2.rules) []

/-- One iteration of the load loop of apply_mapping:
mappings[map_id] = load_mapping(map_id). -/
def loadStep (store : MappingStore) (acc : List (String × ComplianceMapping))
    (mid : String) : Except MapErr (List (String × ComplianceMapping)) := do
  let m ← loadMapping store mid
  return dictInsert acc mid m

/-- The load loop of apply_mapping over the requested ids, propagating
loader errors. -/
def loadAllMappings (store : MappingStore) (mapIds : List String) :
    Except MapErr (List (String × ComplianceMapping)) :=
  mapIds.foldlM (loadStep store) []

/-- Truthiness of an optional severity: the literals are nonempty
strings, so a set severity is always truthy. -/
def sevTruthy (s : Option Severity) : Bool := s.isSome

/-- Truthiness of an optional override string. -/
def overrideTruthy : Option String → Bool
  | none => false
  | some s => s ≠ ""

/-- Truthiness of an optional check_id string. -/
def checkIdTruthy : Option String → Bool
  | none => false
  | some s => s ≠ ""

/-- enriched_finding.severity = override under validate_assignment: the
value must parse as a severity literal, otherwise pydantic raises. -/
def assignSeverity (e : OCSFEnrichedFinding) (value : String) :
    Except MapErr OCSFEnrichedFinding :=
  match sevOfString value with
  | some s => Except.ok { e with severity := some s }
  | none => Except.error MapErr.validationError

/-- One iteration of the match loop of apply_mapping: append the
framework ref of this control and apply its severity override when it
is truthy and the severity is still unset. -/
def applyControlsStep (st : List String × OCSFEnrichedFinding)
    (ci : ControlInfo) : Except MapErr (List String × OCSFEnrichedFinding) := do
  let refs := st.1 ++ [ci.framework ++ ":" ++ ci.control]
  if overrideTruthy ci.severity_override && !sevTruthy st.2.severity then
    let e2 ← assignSeverity st.2 (ci.severity_override.getD "")
    return (refs, e2)
  else
    return (refs, st.2)

/-- The match loop of apply_mapping over the control infos of one
source key: collect the framework refs in order and apply the first
truthy severity override if the severity is still unset. -/
def applyControls (controls : List ControlInfo) (e : OCSFEnrichedFinding) :
    Except MapErr (List String × OCSFEnrichedFinding) :=
  controls.foldlM applyControlsStep ([], e)

/-- The body of apply_mapping for a finding with a truthy check_id:
when the source key is bound in the index, run the match loop and
assign the collected refs, otherwise keep the defaults. -/
def enrichWithControls (enriched : OCSFEnrichedFinding) :
    Option (List ControlInfo) → Except MapErr OCSFEnrichedFinding
  | some controls => do
      let (refs, e) ← applyControls controls enriched
      return { e with framework_refs := refs }
  | none => return enriched

/-- The per-finding body of apply_mapping. -/
def enrichFinding (checkToControls : List (String × List ControlInfo))
    (finding : OCSFFinding) : Except MapErr OCSFEnrichedFinding := do
  let enriched := toEnriched finding
  if checkIdTruthy finding.check_id then
    let sourceKey := finding.product ++ ":" ++ finding.check_id.getD ""
    enrichWithControls enriched (lookupPairs checkToControls sourceKey)
  else
    return enriched

/-- apply_mapping of mapping.py: load all requested rule sets, build
the combined index, and enrich each finding in order. -/
def applyMapping (store : MappingStore) (findings : List OCSFFinding)
    (mapIds : List String) : Except MapErr (List OCSFEnrichedFinding) := do
  let mappings ← loadAllMappings store mapIds
  let checkToControls := buildCheckToControls mappings
  findings.mapM (enrichFinding checkToControls)

/-- A member of a mixed findings list handed to the aggregator: a
canonical finding or an enriched one.  hasattr(f, "framework_refs")
holds exactly for the enriched variant; extra attributes smuggled in
through the permissive model config are not modelled, no embedded
operation writes such an attribute. -/
inductive SummaryFinding where
  | canonical (f : OCSFFinding) : SummaryFinding
  | enriched (f : OCSFEnrichedFinding) : SummaryFinding

/-- The canonical fields of a mixed finding. -/
def SummaryFinding.base : SummaryFinding → OCSFFinding
  | SummaryFinding.canonical f => f
  | SummaryFinding.enriched f => f.toOCSFFinding

/-- hasattr(finding, "framework_refs"). -/
def SummaryFinding.hasRefs : SummaryFinding → Bool
  | SummaryFinding.canonical _ => false
  | SummaryFinding.enriched _ => true

/-- The framework_refs of a mixed finding, empty for the canonical
variant (which has no such attribute). -/
def SummaryFinding.refs : SummaryFinding → List String
  | SummaryFinding.canonical _ => []
  | SummaryFinding.enriched f => f.framework_refs

/-- counter[key] += 1 of collections.Counter: increment in place or
append a new binding (dict(counter) keeps insertion order). -/
def counterAdd (c : List (String × Nat)) (k : String) : List (String × Nat) :=
  if c.any (fun p => p.1 = k) then
    c.map (fun p => if p.1 = k then (p.1, p.2 + 1) else p)
  else c ++ [(k, 1)]

/-- Count the occurrences of each label, in first-appearance order. -/
def countBy (keys : List String) : List (String × Nat) := keys.foldl counterAdd []

/-- finding.severity or "unknown". -/
def severityLabel (f : SummaryFinding) : String :=
  match f.base.severity with
  | some s => s.toStr
  | none => "unknown"

/-- finding.status or "unknown". -/
def statusLabel (f : SummaryFinding) : String :=
  match f.base.status with
  | some s => s.toStr
  | none => "unknown"

/-- severity_counts of summarize.py. -/
def severityCounts (findings : List SummaryFinding) : List (String × Nat) :=
  countBy (findings.map severityLabel)

/-- status_counts of summarize.py. -/
def statusCounts (findings : List SummaryFinding) : List (String × Nat) :=
  countBy (findings.map statusLabel)

/-- provider_counts of summarize.py. -/
def providerCounts (findings : List SummaryFinding) : List (String × Nat) :=
  countBy (findings.map (fun f => f.base.provider.toStr))

/-- product_counts of summarize.py. -/
def productCounts (findings : List SummaryFinding) : List (String × Nat) :=
  countBy (findings.map (fun f => f.base.product))

/-- ref.split(":", 1)[0]: the part of a string before its first colon
(the whole string when it has none). -/
def beforeFirstColon (ref : String) : String := ⟨ref.data.takeWhile (fun c => c ≠ ':')⟩

/-- The test ":" in ref. -/
def refHasColon (ref : String) : Bool := ref.data.contains ':'

/-- The framework ids collected by the loop of generate_finding_summary:
for every finding that has truthy framework_refs, the part before the
first colon of every entry that contains a colon. -/
def collectFrameworks (findings : List SummaryFinding) : List String :=
  (findings.map (fun f =>
    if f.hasRefs && !f.refs.isEmpty then
      (f.refs.filter refHasColon).map beforeFirstColon
    else [])).flatten

/-- sorted(s) for a set s of strings: the ascending enumeration of the
distinct elements, realized as dedup followed by insertion sort. -/
def sortedDistinct (xs : List String) : List String :=
  List.insertionSort (fun a b => a ≤ b) xs.dedup

/-- The frameworks_covered computation of generate_finding_summary,
including its guard on the first finding of the list. -/
def generateFrameworksCovered (findings : List SummaryFinding) : List String :=
  match findings with
  | [] => []
  | f0 :: _ =>
      if f0.hasRefs then sortedDistinct (collectFrameworks findings) else []

/-- time_range_analysis of summarize.py.  datetime values are always
truthy, so the truthiness filter of the source keeps every timestamp. -/
def timeRangeAnalysis (findings : List SummaryFinding) :
    Option Int × Option Int :=
  match findings.map (fun f => f.base.time) with
  | [] => (none, none)
  | t :: ts => (some (ts.foldl min t), some (ts.foldl max t))

/-- Truthiness of an optional identifier string. -/
def truthyOptStr : Option String → Bool
  | none => false
  | some s => s ≠ ""

/-- The number of distinct truthy resource ids (the unique_resources
count of unique_resource_analysis; the resource-type histogram and the
resources-per-account ratio of that function are consumed only by
reporting and are not part of the summary object). -/
def uniqueResourcesCount (findings : List SummaryFinding) : Nat :=
  ((findings.filterMap (fun f =>
    if truthyOptStr f.base.resource_id then f.base.resource_id else none)).dedup).length

/-- The number of distinct truthy account ids. -/
def uniqueAccountsCount (findings : List SummaryFinding) : Nat :=
  ((findings.filterMap (fun f =>
    if truthyOptStr f.base.account_id then f.base.account_id else none)).dedup).length

/-- The summary object (FindingSummary of ocsf_models.py). -/
structure FindingSummary where
  total_findings : Nat
  by_severity : List (String × Nat) := []
  by_status : List (String × Nat) := []
  by_provider : List (String × Nat) := []
  by_product : List (String × Nat) := []
  frameworks_covered : List String := []
  scan_time_range : Option Int × Option Int := (none, none)
  unique_resources : Nat := 0
  unique_accounts : Nat := 0

/-- generate_finding_summary of summarize.py. -/
def generateFindingSummary (findings : List SummaryFinding) : FindingSummary :=
  { total_findings := findings.length,
    by_severity := severityCounts findings,
    by_status := statusCounts findings,
    by_provider := providerCounts findings,
    by_product := productCounts findings,
    frameworks_covered := generateFrameworksCovered findings,
    scan_time_range := timeRangeAnalysis findings,
    unique_resources := uniqueResourcesCount findings,
    unique_accounts := uniqueAccountsCount findings }

/-! Claim-level (specification-side) descriptions, written from the
wording of the specification, to be compared with the embedded code. -/

/-- The candidate-selection criterion the specification literally
states: a value that is present, not null and not the empty string. -/
def nonEmptyValue : JValue → Bool
  | JValue.null => false
  | JValue.str s => s ≠ ""
  | _ => true

/-- The first candidate path whose value is truthy, string-coerced:
the first-truthy-wins extraction contract. -/
def firstTruthyCandidate (rawFinding : JObj) (locations : List (List String)) :
    Option String :=
  match locations.find? (fun loc =>
      match getNestedValue (JValue.obj rawFinding) loc with
      | some v => truthy v
      | none => false) with
  | some loc => (getNestedValue (JValue.obj rawFinding) loc).map pyStr
  | none => none

/-- The extraction the claim literally describes: string coercion of the
first candidate path resolving to a non-empty (present, non-null,
non-empty-string) value. -/
def firstNonEmptyCandidate (rawFinding : JObj) (locations : List (List String)) :
    Option String :=
  match locations.find? (fun loc =>
      match getNestedValue (JValue.obj rawFinding) loc with
      | some v => nonEmptyValue v
      | none => false) with
  | some loc => (getNestedValue (JValue.obj rawFinding) loc).map pyStr
  | none => none

/-- Drop every later duplicate of a string list, keeping first
occurrences in order (what keyed dict insertion effects). -/
def dedupFirstAux (seen : List String) : List String → List String
  | [] => []
  | x :: xs =>
      if seen.contains x then dedupFirstAux seen xs
      else x :: dedupFirstAux (x :: seen) xs

/-- The rule-set ids apply_mapping effectively iterates: the requested
ids with later duplicates dropped. -/
def dedupFirst (xs : List String) : List String := dedupFirstAux [] xs

/-- The framework refs the specification predicts for one source key:
iterate the applied rule sets in caller-supplied order and, within
each, the rules in file order, emitting "id:target" for every rule
whose source equals the key. -/
def expectedRefs (store : MappingStore) (mapIds : List String)
    (sourceKey : String) : List String :=
  ((dedupFirst mapIds).map (fun mid =>
    match loadMapping store mid with
    | Except.ok m =>
        (m.rules.filter (fun rule => rule.source = sourceKey)).map
          (fun rule => mid ++ ":" ++ rule.target)
    | Except.error _ => [])).flatten

/-- The first truthy severity override among the matching rules, in the
same iteration order as expectedRefs. -/
def expectedOverride (store : MappingStore) (mapIds : List String)
    (sourceKey : String) : Option String :=
  (((dedupFirst mapIds).map (fun mid =>
    match loadMapping store mid with
    | Except.ok m =>
        (m.rules.filter (fun rule => rule.source = sourceKey)).filterMap
          (fun rule => match rule.severity with
            | some s => if s ≠ "" then some s else none
            | none => none)
    | Except.error _ => [])).flatten).head?

/-- The frameworks_covered value the claim describes: the sorted list
of the distinct framework ids obtained from every framework_refs entry
of every finding by splitting once on the first colon. -/
def claimFrameworksCovered (findings : List SummaryFinding) : List String :=
  sortedDistinct ((findings.map (fun f => f.refs.map beforeFirstColon)).flatten)

/-! Helper lemmas. -/

theorem except_bind_ok {ε α β : Type} (a : α) (f : α → Except ε β) :
    (Except.ok a >>= f : Except ε β) = f a := rfl

theorem except_bind_err {ε α β : Type} (e : ε) (f : α → Except ε β) :
    (Except.error e >>= f : Except ε β) = Except.error e := rfl

/-! Claim C5. -/

theorem lookupPairs_some_iff {α : Type} (l : List (String × α)) (s : String)
    (x : α) (hnd : (l.map Prod.fst).Nodup) :
    lookupPairs l s = some x ↔ (s, x) ∈ l := by
  induction l with
  | nil => simp [lookupPairs]
  | cons p rest ih =>
      obtain ⟨k, v⟩ := p
      rw [List.map_cons, List.nodup_cons] at hnd
      obtain ⟨hk, hrest⟩ := hnd
      simp only [lookupPairs, List.mem_cons]
      by_cases hks : k = s
      · subst hks
        rw [if_pos rfl]
        constructor
        · intro h
          injection h with h
          exact Or.inl (by rw [h])
        · rintro (h | h)
          · obtain ⟨-, h2⟩ := Prod.mk.injEq .. ▸ h
            rw [h2]
          · exact absurd (List.mem_map_of_mem Prod.fst h) hk
      · rw [if_neg hks, ih hrest]
        have : ¬((s, x) = (k, v)) := by
          intro hc
          exact hks (congrArg Prod.fst hc).symm
        simp [this]

theorem sevLookup_critical (s : String) :
    lookupPairs severityMap s = some Severity.critical ↔
      s = "critical" ∨ s = "crit" := by
  rw [lookupPairs_some_iff _ _ _ (by decide)]
  simp [severityMap]

theorem sevLookup_high (s : String) :
    lookupPairs severityMap s = some Severity.high ↔ s = "high" := by
  rw [lookupPairs_some_iff _ _ _ (by decide)]
  simp [severityMap]

theorem sevLookup_medium (s : String) :
    lookupPairs severityMap s = some Severity.medium ↔
      s = "medium" ∨ s = "med" ∨ s = "moderate" := by
  rw [lookupPairs_some_iff _ _ _ (by decide)]
  simp [severityMap]

theorem sevLookup_low (s : String) :
    lookupPairs severityMap s = some Severity.low ↔ s = "low" := by
  rw [lookupPairs_some_iff _ _ _ (by decide)]
  simp [severityMap]

theorem sevLookup_informational (s : String) :
    lookupPairs severityMap s = some Severity.informational ↔
      s = "info" ∨ s = "informational" ∨ s = "information" ∨ s = "notice" := by
  rw [lookupPairs_some_iff _ _ _ (by decide)]
  simp [severityMap]

theorem statLookup_pass (s : String) :
    lookupPairs statusMap s = some Status.pass ↔
      s = "pass" ∨ s = "passed" ∨ s = "success" ∨ s = "ok" := by
  rw [lookupPairs_some_iff _ _ _ (by decide)]
  simp [statusMap]

theorem statLookup_fail (s : String) :
    lookupPairs statusMap s = some Status.fail ↔
      s = "fail" ∨ s = "failed" ∨ s = "failure" ∨ s = "error" := by
  rw [lookupPairs_some_iff _ _ _ (by decide)]
  simp [statusMap]

theorem statLookup_na (s : String) :
    lookupPairs statusMap s = some Status.not_applicable ↔
      s = "not_applicable" ∨ s = "n/a" ∨ s = "na" ∨ s = "skip" ∨ s = "skipped" := by
  rw [lookupPairs_some_iff _ _ _ (by decide)]
  simp [statusMap]

theorem statLookup_informational (s : String) :
    lookupPairs statusMap s = some Status.informational ↔
      s = "info" ∨ s = "informational" ∨ s = "information" := by
  rw [lookupPairs_some_iff _ _ _ (by decide)]
  simp [statusMap]

/-- C5: severity and status normalization lower-cases and trims the raw
value and maps it through the fixed synonym tables; any value that is
falsy or not in the tables normalizes to unset.  The iff conjuncts pin
the exact content of each table; the concrete conjuncts are the three
examples of the claim.  The claim writes the key "n/a" of the status
table as "n-a" to avoid clashing with its slash-separated lists; its own
example normalizeStatus("N/A") == not_applicable fixes the reading. -/
theorem c5_normalization_tables :
    (∀ v : JValue,
      (normalizeSeverity v = some Severity.critical ↔
        truthy v = true ∧ (lowerStrip v = "critical" ∨ lowerStrip v = "crit"))
      ∧ (normalizeSeverity v = some Severity.high ↔
        truthy v = true ∧ lowerStrip v = "high")
      ∧ (normalizeSeverity v = some Severity.medium ↔
        truthy v = true ∧ (lowerStrip v = "medium" ∨ lowerStrip v = "med" ∨
          lowerStrip v = "moderate"))
      ∧ (normalizeSeverity v = some Severity.low ↔
        truthy v = true ∧ lowerStrip v = "low")
      ∧ (normalizeSeverity v = some Severity.informational ↔
        truthy v = true ∧ (lowerStrip v = "info" ∨ lowerStrip v = "informational" ∨
          lowerStrip v = "information" ∨ lowerStrip v = "notice")))
    ∧ (∀ v : JValue,
      (normalizeStatus v = some Status.pass ↔
        truthy v = true ∧ (lowerStrip v = "pass" ∨ lowerStrip v = "passed" ∨
          lowerStrip v = "success" ∨ lowerStrip v = "ok"))
      ∧ (normalizeStatus v = some Status.fail ↔
        truthy v = true ∧ (lowerStrip v = "fail" ∨ lowerStrip v = "failed" ∨
          lowerStrip v = "failure" ∨ lowerStrip v = "error"))
      ∧ (normalizeStatus v = some Status.not_applicable ↔
        truthy v = true ∧ (lowerStrip v = "not_applicable" ∨ lowerStrip v = "n/a" ∨
          lowerStrip v = "na" ∨ lowerStrip v = "skip" ∨ lowerStrip v = "skipped"))
      ∧ (normalizeStatus v = some Status.informational ↔
        truthy v = true ∧ (lowerStrip v = "info" ∨ lowerStrip v = "informational" ∨
          lowerStrip v = "information")))
    ∧ normalizeSeverity (JValue.str "CRIT") = some Severity.critical
    ∧ normalizeSeverity (JValue.str "") = none
    ∧ normalizeStatus (JValue.str "N/A") = some Status.not_applicable := by
  refine ⟨fun v => ⟨?_, ?_, ?_, ?_, ?_⟩, fun v => ⟨?_, ?_, ?_, ?_⟩,
    by decide, by decide, by decide⟩ <;>
  cases htruthy : truthy v <;>
  simp [normalizeSeverity, normalizeStatus, htruthy, sevLookup_critical,
    sevLookup_high, sevLookup_medium, sevLookup_low, sevLookup_informational,
    statLookup_pass, statLookup_fail, statLookup_na, statLookup_informational]

/-! Claim C7. -/

/-- C7: a raw record accepted by the normalizer is stored verbatim in
the raw field of the produced canonical finding. -/
theorem c7_parse_preserves_raw :
    ∀ (fromIso : String → Option Int) (now : Int) (rawFinding : JObj)
      (provider : Provider) (product : String) (f : OCSFFinding),
      parseSingleFinding fromIso now rawFinding provider product = Except.ok f →
      f.raw = rawFinding := by
  intro fromIso now rawFinding provider product f h
  unfold parseSingleFinding at h
  cases h1 : extractResourceId rawFinding with
  | error e => rw [h1, except_bind_err] at h; exact Except.noConfusion h
  | ok rid =>
  rw [h1, except_bind_ok] at h
  cases h2 : extractAccountId rawFinding with
  | error e => rw [h2, except_bind_err] at h; exact Except.noConfusion h
  | ok aid =>
  rw [h2, except_bind_ok] at h
  cases h3 : extractRegion rawFinding with
  | error e => rw [h3, except_bind_err] at h; exact Except.noConfusion h
  | ok rgn =>
  rw [h3, except_bind_ok] at h
  cases h4 : validateOptionalInt (objGet rawFinding "class_uid") with
  | error e => rw [h4, except_bind_err] at h; exact Except.noConfusion h
  | ok cu =>
  rw [h4, except_bind_ok] at h
  cases h5 : validateOptionalStr (objGet rawFinding "class_name") with
  | error e => rw [h5, except_bind_err] at h; exact Except.noConfusion h
  | ok cn =>
  rw [h5, except_bind_ok] at h
  simp only [pure, Except.pure, Except.ok.injEq] at h
  rw [← h]

/-! Claims C3 and C4. -/

theorem extractFromLocations_eq_firstTruthy (r : JObj) :
    ∀ locs : List (List String),
      extractFromLocations r locs = firstTruthyCandidate r locs := by
  intro locs
  induction locs with
  | nil => rfl
  | cons loc rest ih =>
      cases hg : getNestedValue (JValue.obj r) loc with
      | none =>
          have h1 : extractFromLocations r (loc :: rest) =
              extractFromLocations r rest := by
            simp [extractFromLocations, hg]
          have h2 : firstTruthyCandidate r (loc :: rest) =
              firstTruthyCandidate r rest := by
            unfold firstTruthyCandidate
            rw [List.find?_cons_of_neg _ (by simp [hg])]
          rw [h1, h2]
          exact ih
      | some v =>
          cases ht : truthy v with
          | false =>
              have h1 : extractFromLocations r (loc :: rest) =
                  extractFromLocations r rest := by
                simp [extractFromLocations, hg, ht]
              have h2 : firstTruthyCandidate r (loc :: rest) =
                  firstTruthyCandidate r rest := by
                unfold firstTruthyCandidate
                rw [List.find?_cons_of_neg _ (by simp [hg, ht])]
              rw [h1, h2]
              exact ih
          | true =>
              have h1 : extractFromLocations r (loc :: rest) = some (pyStr v) := by
                simp [extractFromLocations, hg, ht]
              have h2 : firstTruthyCandidate r (loc :: rest) = some (pyStr v) := by
                unfold firstTruthyCandidate
                rw [List.find?_cons_of_pos _ (by simp [hg, ht])]
                simp [hg]
              rw [h1, h2]

/-- The resources value is absent or falsy, so the extractor falls
through to its candidate-path loop. -/
def resourcesFalsy (r : JObj) : Bool :=
  !truthy ((objGet r "resources").getD JValue.null)

/-- The resources value is absent, falsy, or a list whose first element
is a mapping: the shapes on which the resources preamble cannot raise. -/
def resourcesSafe (r : JObj) : Bool :=
  resourcesFalsy r ||
    (match (objGet r "resources").getD JValue.null with
     | JValue.arr (JValue.obj _ :: _) => true
     | _ => false)

theorem extractResourceId_falsy (r : JObj) (h : resourcesFalsy r = true) :
    extractResourceId r = Except.ok (extractFromLocations r resourceIdLocations) := by
  unfold resourcesFalsy at h
  unfold extractResourceId
  cases ho : objGet r "resources" with
  | none => simp [ho, truthy, pure, Except.pure]
  | some v =>
      rw [ho] at h
      simp only [Option.getD_some] at h
      have hv : truthy v = false := by
        cases hb : truthy v
        · rfl
        · rw [hb] at h; exact absurd h (by decide)
      simp [ho, hv, pure, Except.pure]

theorem extractAccountId_falsy (r : JObj) (h : resourcesFalsy r = true) :
    extractAccountId r = Except.ok (extractFromLocations r accountIdLocations) := by
  unfold resourcesFalsy at h
  unfold extractAccountId
  cases ho : objGet r "resources" with
  | none => simp [ho, truthy, pure, Except.pure]
  | some v =>
      rw [ho] at h
      simp only [Option.getD_some] at h
      have hv : truthy v = false := by
        cases hb : truthy v
        · rfl
        · rw [hb] at h; exact absurd h (by decide)
      simp [ho, hv, pure, Except.pure]

theorem extractRegion_falsy (r : JObj) (h : resourcesFalsy r = true) :
    extractRegion r = Except.ok (extractFromLocations r regionLocations) := by
  unfold resourcesFalsy at h
  unfold extractRegion
  cases ho : objGet r "resources" with
  | none => simp [ho, truthy, pure, Except.pure]
  | some v =>
      rw [ho] at h
      simp only [Option.getD_some] at h
      have hv : truthy v = false := by
        cases hb : truthy v
        · rfl
        · rw [hb] at h; exact absurd h (by decide)
      simp [ho, hv, pure, Except.pure]

theorem extractResourceId_resources_obj (r : JObj) (fr : JObj)
    (rest : List JValue)
    (h : objGet r "resources" = some (JValue.arr (JValue.obj fr :: rest))) :
    extractResourceId r = Except.ok
      (match objGet fr "uid" with
       | some v => some (pyStr v)
       | none =>
         match objGet fr "name" with
         | some v => some (pyStr v)
         | none => extractFromLocations r resourceIdLocations) := by
  unfold extractResourceId
  rw [h]
  cases hu : objGet fr "uid" with
  | some v =>
      simp [truthy, pyLen, pySubscriptZero, pyContains, pyGetItemStr, hu,
        except_bind_ok, pure, Except.pure, Nat.succ_pos]
  | none =>
      cases hn : objGet fr "name" with
      | some v =>
          simp [truthy, pyLen, pySubscriptZero, pyContains, pyGetItemStr, hu, hn,
            except_bind_ok, pure, Except.pure, Nat.succ_pos]
      | none =>
          simp [truthy, pyLen, pySubscriptZero, pyContains, pyGetItemStr, hu, hn,
            except_bind_ok, pure, Except.pure, Nat.succ_pos]

theorem extractAccountId_resources_obj (r : JObj) (fr : JObj)
    (rest : List JValue)
    (h : objGet r "resources" = some (JValue.arr (JValue.obj fr :: rest))) :
    extractAccountId r = Except.ok
      (match objGet fr "account_uid" with
       | some v => some (pyStr v)
       | none => extractFromLocations r accountIdLocations) := by
  unfold extractAccountId
  rw [h]
  cases hu : objGet fr "account_uid" with
  | some v =>
      simp [truthy, pyLen, pySubscriptZero, pyContains, pyGetItemStr, hu,
        except_bind_ok, pure, Except.pure, Nat.succ_pos]
  | none =>
      simp [truthy, pyLen, pySubscriptZero, pyContains, pyGetItemStr, hu,
        except_bind_ok, pure, Except.pure, Nat.succ_pos]

theorem extractRegion_resources_obj (r : JObj) (fr : JObj)
    (rest : List JValue)
    (h : objGet r "resources" = some (JValue.arr (JValue.obj fr :: rest))) :
    extractRegion r = Except.ok
      (match objGet fr "region" with
       | some v => some (pyStr v)
       | none => extractFromLocations r regionLocations) := by
  unfold extractRegion
  rw [h]
  cases hu : objGet fr "region" with
  | some v =>
      simp [truthy, pyLen, pySubscriptZero, pyContains, pyGetItemStr, hu,
        except_bind_ok, pure, Except.pure, Nat.succ_pos]
  | none =>
      simp [truthy, pyLen, pySubscriptZero, pyContains, pyGetItemStr, hu,
        except_bind_ok, pure, Except.pure, Nat.succ_pos]

/-- C3, amended: each field extractor returns the string coercion of
the first candidate path, in the fixed per-field order, whose value is
truthy (so null, missing, empty string, zero, false and empty
containers are all skipped, not only null, missing and empty string);
for resource id, account id and region the resources-array candidate is
consulted only when resources is truthy, fires on key presence of
uid/name (account_uid, region) in the first element, and string-coerces
that value even when it is falsy. -/
theorem c3_extraction_order :
    (∀ (r : JObj) (locs : List (List String)),
        extractFromLocations r locs = firstTruthyCandidate r locs)
    ∧ (∀ r : JObj,
        extractCheckId r = firstTruthyCandidate r checkIdLocations
        ∧ extractTitle r = firstTruthyCandidate r titleLocations
        ∧ extractDescription r = firstTruthyCandidate r descriptionLocations
        ∧ extractRemediation r = firstTruthyCandidate r remediationLocations)
    ∧ (∀ r : JObj, resourcesFalsy r = true →
        extractResourceId r = Except.ok (firstTruthyCandidate r resourceIdLocations)
        ∧ extractAccountId r = Except.ok (firstTruthyCandidate r accountIdLocations)
        ∧ extractRegion r = Except.ok (firstTruthyCandidate r regionLocations))
    ∧ (∀ (r fr : JObj) (rest : List JValue),
        objGet r "resources" = some (JValue.arr (JValue.obj fr :: rest)) →
        extractResourceId r = Except.ok
          (match objGet fr "uid" with
           | some v => some (pyStr v)
           | none =>
             match objGet fr "name" with
             | some v => some (pyStr v)
             | none => firstTruthyCandidate r resourceIdLocations)) := by
  refine ⟨extractFromLocations_eq_firstTruthy, fun r => ?_, fun r h => ?_,
    fun r fr rest h => ?_⟩
  · exact ⟨extractFromLocations_eq_firstTruthy r _,
      extractFromLocations_eq_firstTruthy r _,
      extractFromLocations_eq_firstTruthy r _,
      extractFromLocations_eq_firstTruthy r _⟩
  · rw [← extractFromLocations_eq_firstTruthy, ← extractFromLocations_eq_firstTruthy,
      ← extractFromLocations_eq_firstTruthy]
    exact ⟨extractResourceId_falsy r h, extractAccountId_falsy r h,
      extractRegion_falsy r h⟩
  · rw [← extractFromLocations_eq_firstTruthy]
    exact extractResourceId_resources_obj r fr rest h

/-- A record where the claimed non-empty criterion and the code-side
truthiness diverge: resource_uid holds False. -/
def c3raw1 : JObj := [("resource_uid", JValue.bool false), ("arn", JValue.str "x")]

/-- A record where the resources-array candidate fires on key presence
with an empty-string uid. -/
def c3raw2 : JObj :=
  [("resources", JValue.arr [JValue.obj [("uid", JValue.str "")]]),
   ("arn", JValue.str "x")]

/-- Counterexample to C3 as stated: on c3raw1 the first candidate with a
present, non-null, non-empty-string value is resource_uid (False), so
the claim predicts its coercion "False", but the code skips every falsy
value and returns "x"; on c3raw2 the claim predicts "x" because the uid
value is the empty string, but the code returns "" on key presence. -/
theorem c3_counterexample :
    firstNonEmptyCandidate c3raw1 resourceIdLocations = some "False"
    ∧ extractResourceId c3raw1 = Except.ok (some "x")
    ∧ firstNonEmptyCandidate c3raw2 resourceIdLocations = some "x"
    ∧ extractResourceId c3raw2 = Except.ok (some "")
    ∧ (some "x" : Option String) ≠ some "False"
    ∧ (some "" : Option String) ≠ some "x" := by
  refine ⟨by rfl, by rfl, by rfl, by rfl, by decide, by decide⟩

/-- Witness for C3 at a concrete record with falsy resources. -/
theorem c3_extraction_order_witness :
    extractResourceId [("arn", JValue.str "x")] =
      Except.ok (firstTruthyCandidate [("arn", JValue.str "x")] resourceIdLocations) :=
  (c3_extraction_order.2.2.1 [("arn", JValue.str "x")] (by rfl)).1

/-- C4, amended: the candidate-path traversal stops with absent as soon
as an intermediate key is missing or the current value is not a
mapping, and no extractor raises on a record whose resources field is
absent, falsy, or a list whose first element is a mapping; a truthy
resources value of another shape can raise (see the counterexample). -/
theorem c4_extractors_no_raise :
    (∀ r : JObj, resourcesSafe r = true →
      (extractResourceId r).isOk = true
      ∧ (extractAccountId r).isOk = true
      ∧ (extractRegion r).isOk = true)
    ∧ (∀ (v : JValue) (key : String) (rest : List String),
        (∀ kvs : JObj, v ≠ JValue.obj kvs) →
        getNestedValue v (key :: rest) = none)
    ∧ (∀ (kvs : JObj) (key : String) (rest : List String),
        objGet kvs key = none →
        getNestedValue (JValue.obj kvs) (key :: rest) = none) := by
  refine ⟨fun r h => ?_, fun v key rest h => ?_, fun kvs key rest h => ?_⟩
  · unfold resourcesSafe at h
    rcases (Bool.or_eq_true _ _).mp h with hfalsy | hshape
    · rw [extractResourceId_falsy r hfalsy, extractAccountId_falsy r hfalsy,
        extractRegion_falsy r hfalsy]
      exact ⟨rfl, rfl, rfl⟩
    · cases ho : objGet r "resources" with
      | none => rw [ho] at hshape; simp at hshape
      | some v =>
          rw [ho] at hshape
          simp only [Option.getD_some] at hshape
          cases v with
          | null => simp at hshape
          | bool b => simp at hshape
          | num n => simp at hshape
          | str s => simp at hshape
          | obj kvs => simp at hshape
          | arr xs =>
              cases xs with
              | nil => simp at hshape
              | cons x rest2 =>
                  cases x with
                  | null => simp at hshape
                  | bool b => simp at hshape
                  | num n => simp at hshape
                  | str s => simp at hshape
                  | arr ys => simp at hshape
                  | obj fr =>
                      rw [extractResourceId_resources_obj r fr rest2 ho,
                        extractAccountId_resources_obj r fr rest2 ho,
                        extractRegion_resources_obj r fr rest2 ho]
                      exact ⟨rfl, rfl, rfl⟩
  · cases v
    case obj kvs => exact absurd rfl (h kvs)
    all_goals simp [getNestedValue]
  · simp [getNestedValue, h]

/-- Counterexample to C4 as stated: a record whose resources field is a
list of non-mappings makes _extract_resource_id raise a TypeError (the
membership test "uid" in 42). -/
theorem c4_counterexample :
    extractResourceId [("resources", JValue.arr [JValue.num 42])] =
      Except.error PyErr.typeError := by rfl

/-- Witness for C4 at a concrete safe record. -/
theorem c4_extractors_no_raise_witness :
    (extractResourceId [("arn", JValue.str "x")]).isOk = true
    ∧ (extractAccountId [("arn", JValue.str "x")]).isOk = true
    ∧ (extractRegion [("arn", JValue.str "x")]).isOk = true :=
  c4_extractors_no_raise.1 [("arn", JValue.str "x")] (by rfl)

/-! Claim C9. -/

/-- An Except value whose only possible error is MappingLoadError. -/
def OnlyLoadErr {α : Type} (x : Except MapErr α) : Prop :=
  ∀ e, x = Except.error e → e = MapErr.loadError

theorem onlyLoadErr_ok {α : Type} (a : α) : OnlyLoadErr (Except.ok a) :=
  fun _ he => Except.noConfusion he

theorem onlyLoadErr_pure {α : Type} (a : α) :
    OnlyLoadErr (pure a : Except MapErr α) :=
  fun _ he => Except.noConfusion he

theorem onlyLoadErr_err {α : Type} :
    OnlyLoadErr (Except.error MapErr.loadError : Except MapErr α) := by
  intro e he
  injection he with he
  exact he.symm

theorem onlyLoadErr_bind {α β : Type} (x : Except MapErr α)
    (f : α → Except MapErr β) (hx : OnlyLoadErr x)
    (hf : ∀ a, OnlyLoadErr (f a)) : OnlyLoadErr (x >>= f) := by
  intro e he
  cases x with
  | error e1 =>
      rw [except_bind_err] at he
      injection he with h2
      rw [← h2]
      exact hx e1 rfl
  | ok a =>
      rw [except_bind_ok] at he
      exact hf a e he

theorem onlyLoadErr_map {α β : Type} (g : α → β) (x : Except MapErr α)
    (hx : OnlyLoadErr x) : OnlyLoadErr (g <$> x) := by
  intro e he
  cases x with
  | error e1 =>
      have he2 : (Except.error e1 : Except MapErr β) = Except.error e := he
      injection he2 with h2
      rw [← h2]
      exact hx e1 rfl
  | ok a => exact Except.noConfusion he

theorem onlyLoadErr_mapM {α β : Type} (f : α → Except MapErr β)
    (hf : ∀ a, OnlyLoadErr (f a)) :
    ∀ xs : List α, OnlyLoadErr (xs.mapM f) := by
  intro xs
  induction xs with
  | nil => exact onlyLoadErr_pure _
  | cons x rest ih =>
      rw [List.mapM_cons]
      exact onlyLoadErr_bind _ _ (hf x) (fun a =>
        onlyLoadErr_bind _ _ ih (fun ys => onlyLoadErr_pure _))

theorem requireStr_only (v : Option JValue) : OnlyLoadErr (requireStr v) := by
  unfold requireStr
  split
  · exact onlyLoadErr_ok _
  · exact onlyLoadErr_err

theorem optionalStrField_only (v : Option JValue) :
    OnlyLoadErr (optionalStrField v) := by
  unfold optionalStrField
  split
  · exact onlyLoadErr_ok _
  · exact onlyLoadErr_ok _
  · exact onlyLoadErr_ok _
  · exact onlyLoadErr_err

theorem validateStrList_only (v : JValue) : OnlyLoadErr (validateStrList v) := by
  unfold validateStrList
  split
  · apply onlyLoadErr_mapM
    intro x
    split
    · exact onlyLoadErr_ok _
    · exact onlyLoadErr_err
  · exact onlyLoadErr_err

theorem validateMappingRule_only (v : JValue) :
    OnlyLoadErr (validateMappingRule v) := by
  unfold validateMappingRule
  split
  · split
    · apply onlyLoadErr_bind _ _ (requireStr_only _)
      intro source
      apply onlyLoadErr_bind _ _ (requireStr_only _)
      intro target
      apply onlyLoadErr_bind _ _ (requireStr_only _)
      intro title
      apply onlyLoadErr_bind _ _ (requireStr_only _)
      intro description
      apply onlyLoadErr_bind _ _ (optionalStrField_only _)
      intro severity
      exact onlyLoadErr_pure _
    · exact onlyLoadErr_err
  · exact onlyLoadErr_err

theorem requireStrList_only (v : Option JValue) :
    OnlyLoadErr (requireStrList v) := by
  unfold requireStrList
  split
  · exact validateStrList_only _
  · exact onlyLoadErr_err

theorem optionalStrListField_only (v : Option JValue) :
    OnlyLoadErr (optionalStrListField v) := by
  unfold optionalStrListField
  split
  · exact onlyLoadErr_ok _
  · exact validateStrList_only _

theorem validateMappingCategory_only (v : JValue) :
    OnlyLoadErr (validateMappingCategory v) := by
  unfold validateMappingCategory
  split
  · split
    · apply onlyLoadErr_bind _ _ (requireStr_only _)
      intro cid
      apply onlyLoadErr_bind _ _ (requireStr_only _)
      intro cname
      apply onlyLoadErr_bind _ _ (requireStrList_only _)
      intro controls
      exact onlyLoadErr_pure _
    · exact onlyLoadErr_err
  · exact onlyLoadErr_err

theorem validateMetadata_only (v : JValue) : OnlyLoadErr (validateMetadata v) := by
  unfold validateMetadata
  split
  · apply onlyLoadErr_bind _ _ (optionalStrField_only _)
    intro created
    apply onlyLoadErr_bind _ _ (optionalStrField_only _)
    intro updated
    apply onlyLoadErr_bind _ _ (optionalStrField_only _)
    intro author
    apply onlyLoadErr_bind _ _ (optionalStrField_only _)
    intro sourceUrl
    apply onlyLoadErr_bind _ _ (optionalStrListField_only _)
    intro tags
    exact onlyLoadErr_pure _
  · exact onlyLoadErr_err

theorem requireRuleList_only (v : Option JValue) :
    OnlyLoadErr (requireRuleList v) := by
  unfold requireRuleList
  split
  · exact onlyLoadErr_mapM _ validateMappingRule_only _
  · exact onlyLoadErr_err

theorem optionalCategoryList_only (v : Option JValue) :
    OnlyLoadErr (optionalCategoryList v) := by
  unfold optionalCategoryList
  split
  · exact onlyLoadErr_ok _
  · exact onlyLoadErr_mapM _ validateMappingCategory_only _
  · exact onlyLoadErr_err

theorem optionalMetadataField_only (v : Option JValue) :
    OnlyLoadErr (optionalMetadataField v) := by
  unfold optionalMetadataField
  split
  · exact onlyLoadErr_ok _
  · exact onlyLoadErr_ok _
  · exact onlyLoadErr_map _ _ (validateMetadata_only _)

theorem validateComplianceMapping_only (kvs : JObj) :
    OnlyLoadErr (validateComplianceMapping kvs) := by
  unfold validateComplianceMapping
  split
  · apply onlyLoadErr_bind _ _ (requireStr_only _)
    intro mapId
    apply onlyLoadErr_bind _ _ (requireStr_only _)
    intro name
    apply onlyLoadErr_bind _ _ (requireStr_only _)
    intro version
    apply onlyLoadErr_bind _ _ (requireStr_only _)
    intro description
    apply onlyLoadErr_bind _ _ (requireStr_only _)
    intro frameworkType
    apply onlyLoadErr_bind _ _ (optionalStrField_only _)
    intro provider
    apply onlyLoadErr_bind _ _ (requireRuleList_only _)
    intro rules
    apply onlyLoadErr_bind _ _ (optionalCategoryList_only _)
    intro categories
    apply onlyLoadErr_bind _ _ (optionalMetadataField_only _)
    intro metadata
    exact onlyLoadErr_pure _
  · exact onlyLoadErr_err

/-- C9: loading a rule set fails with NotFoundError exactly when the id
is absent from the backing store, and the error carries the sorted list
of the available ids; every other failure (YAML syntax error, a
non-mapping top level, any shape-validation failure, in particular an
unknown top-level field) is a LoadError and never any other error. -/
theorem c9_load_mapping_errors :
    (∀ (store : MappingStore) (mapId : String),
       lookupPairs store mapId = none ↔
         loadMapping store mapId =
           Except.error (MapErr.notFound (listAvailableMappings store)))
    ∧ (∀ (store : MappingStore) (mapId : String) (avail : List String),
         loadMapping store mapId = Except.error (MapErr.notFound avail) →
         avail = listAvailableMappings store ∧ lookupPairs store mapId = none)
    ∧ (∀ (store : MappingStore) (mapId : String),
         lookupPairs store mapId = some YamlData.malformed →
         loadMapping store mapId = Except.error MapErr.loadError)
    ∧ (∀ (store : MappingStore) (mapId : String) (v : JValue),
         lookupPairs store mapId = some (YamlData.parsed v) →
         (∀ kvs : JObj, v ≠ JValue.obj kvs) →
         loadMapping store mapId = Except.error MapErr.loadError)
    ∧ (∀ (store : MappingStore) (mapId : String) (kvs : JObj) (e : MapErr),
         lookupPairs store mapId = some (YamlData.parsed (JValue.obj kvs)) →
         loadMapping store mapId = Except.error e →
         e = MapErr.loadError)
    ∧ (∀ (store : MappingStore) (mapId : String) (kvs : JObj)
         (kv : String × JValue),
         lookupPairs store mapId = some (YamlData.parsed (JValue.obj kvs)) →
         kv ∈ kvs → complianceMappingKeys.contains kv.1 = false →
         loadMapping store mapId = Except.error MapErr.loadError) := by
  refine ⟨fun store mapId => ⟨fun h => ?_, fun h => ?_⟩,
    fun store mapId avail h => ?_,
    fun store mapId h => ?_,
    fun store mapId v h hobj => ?_,
    fun store mapId kvs e h he => ?_,
    fun store mapId kvs kv h hmem hkey => ?_⟩
  · unfold loadMapping
    rw [h]
  · cases hl : lookupPairs store mapId with
    | none => rfl
    | some d =>
        unfold loadMapping at h
        rw [hl] at h
        exfalso
        cases d with
        | malformed =>
            injection h with h
            exact MapErr.noConfusion h
        | parsed v =>
            cases v with
            | obj kvs =>
                have := validateComplianceMapping_only kvs _ h
                exact MapErr.noConfusion this
            | null => injection h with h; exact MapErr.noConfusion h
            | bool b => injection h with h; exact MapErr.noConfusion h
            | num n => injection h with h; exact MapErr.noConfusion h
            | str s => injection h with h; exact MapErr.noConfusion h
            | arr xs => injection h with h; exact MapErr.noConfusion h
  · cases hl : lookupPairs store mapId with
    | none =>
        unfold loadMapping at h
        rw [hl] at h
        injection h with h
        injection h with h
        exact ⟨h.symm, rfl⟩
    | some d =>
        exfalso
        unfold loadMapping at h
        rw [hl] at h
        cases d with
        | malformed =>
            injection h with h
            exact MapErr.noConfusion h
        | parsed v =>
            cases v with
            | obj kvs =>
                have := validateComplianceMapping_only kvs _ h
                exact MapErr.noConfusion this
            | null => injection h with h; exact MapErr.noConfusion h
            | bool b => injection h with h; exact MapErr.noConfusion h
            | num n => injection h with h; exact MapErr.noConfusion h
            | str s => injection h with h; exact MapErr.noConfusion h
            | arr xs => injection h with h; exact MapErr.noConfusion h
  · unfold loadMapping
    rw [h]
  · unfold loadMapping
    rw [h]
    cases v with
    | obj kvs => exact absurd rfl (hobj kvs)
    | null => rfl
    | bool b => rfl
    | num n => rfl
    | str s => rfl
    | arr xs => rfl
  · unfold loadMapping at he
    rw [h] at he
    exact validateComplianceMapping_only kvs e he
  · unfold loadMapping
    rw [h]
    show validateComplianceMapping kvs = Except.error MapErr.loadError
    have hall : (kvs.all fun kv => complianceMappingKeys.contains kv.1) = false := by
      apply List.all_eq_false.mpr
      refine ⟨kv, hmem, ?_⟩
      rw [hkey]
      exact Bool.noConfusion
    have hc : ¬((kvs.all fun kv => complianceMappingKeys.contains kv.1) = true) := by
      rw [hall]
      exact Bool.noConfusion
    unfold validateComplianceMapping
    rw [if_neg hc]

/-- The backing store of the C9 witness: one rule set whose definition
carries an unknown top-level field. -/
def c9store : MappingStore :=
  [("a", YamlData.parsed (JValue.obj [("bogus", JValue.null)]))]

/-- Witness for C9: the unknown-field conjunct at a concrete store, and
the NotFoundError conjunct at an absent id. -/
theorem c9_load_mapping_errors_witness :
    loadMapping c9store "a" = Except.error MapErr.loadError
    ∧ loadMapping c9store "missing" =
        Except.error (MapErr.notFound (listAvailableMappings c9store)) :=
  ⟨c9_load_mapping_errors.2.2.2.2.2 c9store "a" [("bogus", JValue.null)]
      ("bogus", JValue.null) (by rfl) (List.mem_singleton.mpr rfl) (by rfl),
    (c9_load_mapping_errors.1 c9store "missing").mp (by rfl)⟩

/-- The raw record of the C7 witness. -/
def c7raw : JObj := [("check_id", JValue.str "c")]

/-- The canonical finding the normalizer produces for c7raw. -/
def c7finding : OCSFFinding :=
  { time := 0, provider := Provider.aws, product := "p",
    check_id := some "c", raw := c7raw }

/-- Witness for C7 at a concrete record. -/
theorem c7_parse_preserves_raw_witness : c7finding.raw = c7raw :=
  c7_parse_preserves_raw (fun _ => none) 0 c7raw Provider.aws "p" c7finding (by rfl)

/-! Claims C1, C2, C8 and C10: the apply_mapping machinery. -/

/-- The control list bound to a source key in the combined index (the
empty list when the key is unbound). -/
def ctcGet (d : List (String × List ControlInfo)) (k : String) :
    List ControlInfo :=
  (lookupPairs d k).getD []

/-- The framework ref apply_mapping emits for one matched control. -/
def refOfControl (ci : ControlInfo) : String := ci.framework ++ ":" ++ ci.control

/-- The severity override a control contributes when truthy. -/
def overridePick (ci : ControlInfo) : Option String :=
  match ci.severity_override with
  | some s => if s ≠ "" then some s else none
  | none => none

/-- The first truthy severity override among a list of controls. -/
def firstOverride (controls : List ControlInfo) : Option String :=
  (controls.filterMap overridePick).head?

theorem lookupPairs_append {α : Type} (l1 l2 : List (String × α)) (k : String) :
    lookupPairs (l1 ++ l2) k =
      (match lookupPairs l1 k with
       | some v => some v
       | none => lookupPairs l2 k) := by
  induction l1 with
  | nil => simp [lookupPairs]
  | cons p rest ih =>
      obtain ⟨k1, v1⟩ := p
      by_cases h : k1 = k
      · simp [lookupPairs, h]
      · simp [lookupPairs, h, ih]

theorem lookup_isSome_of_any {α : Type} (d : List (String × α)) (k : String)
    (h : (d.any fun p => p.1 = k) = true) : ∃ v, lookupPairs d k = some v := by
  induction d with
  | nil => simp at h
  | cons p rest ih =>
      obtain ⟨k1, v1⟩ := p
      by_cases h1 : k1 = k
      · exact ⟨v1, by simp [lookupPairs, h1]⟩
      · rw [List.any_cons] at h
        simp only [h1] at h
        obtain ⟨v, hv⟩ := ih (by simpa using h)
        exact ⟨v, by simp [lookupPairs, h1, hv]⟩

theorem lookup_none_of_not_any {α : Type} (d : List (String × α)) (k : String)
    (h : (d.any fun p => p.1 = k) = false) : lookupPairs d k = none := by
  induction d with
  | nil => rfl
  | cons p rest ih =>
      obtain ⟨k1, v1⟩ := p
      rw [List.any_cons] at h
      rcases Bool.or_eq_false_iff.mp h with ⟨h1, h2⟩
      have hk1 : k1 ≠ k := by simpa using h1
      simp [lookupPairs, hk1, ih h2]

theorem lookup_map_update (d : List (String × List ControlInfo)) (k : String)
    (ci : ControlInfo) (k2 : String) :
    lookupPairs (d.map (fun p => if p.1 = k then (p.1, p.2 ++ [ci]) else p)) k2 =
      if k2 = k then (lookupPairs d k2).map (fun l => l ++ [ci])
      else lookupPairs d k2 := by
  induction d with
  | nil => by_cases h : k2 = k <;> simp [lookupPairs, h]
  | cons p rest ih =>
      obtain ⟨k1, l1⟩ := p
      rw [List.map_cons]
      by_cases h1 : k1 = k
      · rw [if_pos (show ((k1, l1) : String × List ControlInfo).1 = k from h1)]
        subst h1
        by_cases h2 : k2 = k1
        · subst h2
          simp [lookupPairs]
        · have h2s : ¬(k1 = k2) := fun hc => h2 hc.symm
          simp [lookupPairs, h2, h2s, ih]
      · rw [if_neg (show ¬((k1, l1) : String × List ControlInfo).1 = k from h1)]
        by_cases h2 : k2 = k1
        · subst h2
          have hne : ¬(k2 = k) := fun hc => h1 (hc ▸ rfl)
          simp [lookupPairs, hne]
        · have h2s : ¬(k1 = k2) := fun hc => h2 hc.symm
          simp [lookupPairs, h2s, ih]

theorem multiDictAppend_ctcGet (d : List (String × List ControlInfo))
    (k : String) (ci : ControlInfo) (k2 : String) :
    ctcGet (multiDictAppend d k ci) k2 =
      if k2 = k then ctcGet d k2 ++ [ci] else ctcGet d k2 := by
  unfold multiDictAppend ctcGet
  by_cases hin : (d.any fun p => p.1 = k) = true
  · rw [if_pos hin, lookup_map_update]
    by_cases h2 : k2 = k
    · rw [if_pos h2, if_pos h2]
      obtain ⟨v, hv⟩ := lookup_isSome_of_any d k hin
      rw [h2, hv]
      rfl
    · rw [if_neg h2, if_neg h2]
  · rw [if_neg hin, lookupPairs_append]
    have hnone : lookupPairs d k = none :=
      lookup_none_of_not_any d k (Bool.not_eq_true _ ▸ Bool.of_not_eq_true hin)
    by_cases h2 : k2 = k
    · subst h2
      rw [hnone]
      simp [lookupPairs]
    · rw [if_neg h2]
      cases hl : lookupPairs d k2 with
      | some v => rfl
      | none =>
          have hne : ¬(k = k2) := fun hc => h2 hc.symm
          simp [lookupPairs, hne]

theorem addMappingRules_ctcGet (mapId : String) :
    ∀ (rules : List MappingRule) (d : List (String × List ControlInfo))
      (k : String),
      ctcGet (addMappingRules d mapId rules) k =
        ctcGet d k ++
          (rules.filter (fun rule => rule.source = k)).map
            (controlInfoOfRule mapId) := by
  intro rules
  induction rules with
  | nil => intro d k; simp [addMappingRules]
  | cons rule rest ih =>
      intro d k
      show ctcGet (addMappingRules
        (multiDictAppend d rule.source (controlInfoOfRule mapId rule))
        mapId rest) k = _
      rw [ih, multiDictAppend_ctcGet]
      by_cases hk : k = rule.source
      · rw [if_pos hk, List.filter_cons_of_pos (by simp [hk.symm])]
        simp
      · rw [if_neg hk,
          List.filter_cons_of_neg (by simp; exact fun hc => hk hc.symm)]

theorem buildCheckToControls_ctcGet
    (mappings : List (String × ComplianceMapping)) (k : String) :
    ctcGet (buildCheckToControls mappings) k =
      (mappings.map (fun p =>
        (p.2.rules.filter (fun rule => rule.source = k)).map
          (controlInfoOfRule p.1))).flatten := by
  suffices hgen : ∀ (ms : List (String × ComplianceMapping))
      (d : List (String × List ControlInfo)),
      ctcGet (ms.foldl (fun acc p => addMappingRules acc p.1 p.2.rules) d) k =
        ctcGet d k ++ (ms.map (fun p =>
          (p.2.rules.filter (fun rule => rule.source = k)).map
            (controlInfoOfRule p.1))).flatten by
    have h := hgen mappings []
    simpa [buildCheckToControls, ctcGet, lookupPairs] using h
  intro ms
  induction ms with
  | nil => intro d; simp
  | cons p rest ih =>
      intro d
      rw [List.foldl_cons, ih, addMappingRules_ctcGet]
      simp

instance : Inhabited ComplianceMapping :=
  ⟨{ map_id := "", name := "", version := "", description := "",
     framework_type := "", rules := [] }⟩

/-- The rule set a successful load of an id yields (an arbitrary value
for ids whose load fails; used only under success hypotheses). -/
def loadedMapping (store : MappingStore) (mid : String) : ComplianceMapping :=
  match loadMapping store mid with
  | Except.ok m => m
  | Except.error _ => default

/-- The loaded-mappings dict apply_mapping builds: the deduplicated ids
in first-occurrence order, each bound to its loaded rule set. -/
def mappingsOf (store : MappingStore) (mapIds : List String) :
    List (String × ComplianceMapping) :=
  (dedupFirst mapIds).map (fun mid => (mid, loadedMapping store mid))

theorem dedupFirstAux_congr :
    ∀ (xs s1 s2 : List String), (∀ a, a ∈ s1 ↔ a ∈ s2) →
      dedupFirstAux s1 xs = dedupFirstAux s2 xs := by
  intro xs
  induction xs with
  | nil => intro s1 s2 _; rfl
  | cons x rest ih =>
      intro s1 s2 hmem
      have hc : s1.contains x = s2.contains x := by
        cases hc2 : s2.contains x with
        | true =>
            have : x ∈ s2 := by simpa using hc2
            have : x ∈ s1 := (hmem x).mpr this
            simpa using this
        | false =>
            have h2 : ¬(x ∈ s2) := by simpa using hc2
            have h1 : ¬(x ∈ s1) := fun hx => h2 ((hmem x).mp hx)
            simpa using h1
      cases hc2 : s2.contains x with
      | true =>
          have h1 : s1.contains x = true := by rw [hc, hc2]
          simp only [dedupFirstAux, h1, hc2, if_true]
          exact ih s1 s2 hmem
      | false =>
          have h1 : s1.contains x = false := by rw [hc, hc2]
          simp only [dedupFirstAux, h1, hc2, Bool.false_eq_true, if_false,
            List.cons.injEq, true_and]
          exact ih (x :: s1) (x :: s2) (by intro a; simp [hmem a])

theorem dedupFirstAux_subset :
    ∀ (xs seen : List String) (a : String), a ∈ dedupFirstAux seen xs → a ∈ xs := by
  intro xs
  induction xs with
  | nil => intro seen a h; exact absurd h (by simp [dedupFirstAux])
  | cons x rest ih =>
      intro seen a h
      unfold dedupFirstAux at h
      by_cases hc : seen.contains x
      · rw [if_pos hc] at h
        exact List.mem_cons_of_mem x (ih seen a h)
      · rw [if_neg hc] at h
        rcases List.mem_cons.mp h with h | h
        · exact h ▸ List.mem_cons_self x rest
        · exact List.mem_cons_of_mem x (ih (x :: seen) a h)

theorem dedupFirst_subset (xs : List String) (a : String)
    (h : a ∈ dedupFirst xs) : a ∈ xs :=
  dedupFirstAux_subset xs [] a h

theorem dictInsert_present {α : Type} (g : String → α)
    (d : List (String × α)) (k : String)
    (hvals : ∀ p ∈ d, p.2 = g p.1)
    (hin : (d.any fun p => p.1 = k) = true) :
    dictInsert d k (g k) = d := by
  unfold dictInsert
  rw [if_pos hin]
  conv_rhs => rw [← List.map_id d]
  apply List.map_congr_left
  intro p hp
  by_cases hpk : p.1 = k
  · rw [if_pos hpk]
    have hv : g k = p.2 := by rw [← hpk]; exact (hvals p hp).symm
    rw [hv]
    simp
  · rw [if_neg hpk]
    simp

theorem dictInsertFold {α : Type} (g : String → α) :
    ∀ (ids : List String) (acc : List (String × α)),
      (∀ p ∈ acc, p.2 = g p.1) →
      ids.foldl (fun d mid => dictInsert d mid (g mid)) acc =
        acc ++ (dedupFirstAux (acc.map Prod.fst) ids).map
          (fun mid => (mid, g mid)) := by
  intro ids
  induction ids with
  | nil => intro acc _; simp [dedupFirstAux]
  | cons mid rest ih =>
      intro acc hvals
      rw [List.foldl_cons]
      by_cases hin : (acc.any fun p => p.1 = mid) = true
      · rw [dictInsert_present g acc mid hvals hin]
        have hex : ∃ p ∈ acc, p.1 = mid := by
          simpa [List.any_eq_true] using hin
        obtain ⟨p, hp, hpk⟩ := hex
        have hmemmap : mid ∈ acc.map Prod.fst := by
          rw [← hpk]
          exact List.mem_map_of_mem Prod.fst hp
        have hcont : (acc.map Prod.fst).contains mid = true := by
          simpa using hmemmap
        have hrhs : dedupFirstAux (acc.map Prod.fst) (mid :: rest) =
            dedupFirstAux (acc.map Prod.fst) rest := by
          simp only [dedupFirstAux, hcont, if_true]
        rw [ih acc hvals, hrhs]
      · have hnotin : ¬(mid ∈ acc.map Prod.fst) := by
          intro hmem
          obtain ⟨p, hp, hpk⟩ := List.mem_map.mp hmem
          exact absurd (by
            apply List.any_eq_true.mpr
            exact ⟨p, hp, by simp [hpk]⟩) hin
        have hcont : (acc.map Prod.fst).contains mid = false := by
          simpa using hnotin
        have hstep : dictInsert acc mid (g mid) = acc ++ [(mid, g mid)] := by
          unfold dictInsert
          rw [if_neg hin]
        have hvals2 : ∀ p ∈ acc ++ [(mid, g mid)], p.2 = g p.1 := by
          intro p hp
          rcases List.mem_append.mp hp with h | h
          · exact hvals p h
          · have : p = (mid, g mid) := by simpa using h
            rw [this]
        have hrhs : dedupFirstAux (acc.map Prod.fst) (mid :: rest) =
            mid :: dedupFirstAux (mid :: acc.map Prod.fst) rest := by
          simp only [dedupFirstAux, hcont, Bool.false_eq_true, if_false]
        rw [hstep, ih (acc ++ [(mid, g mid)]) hvals2, hrhs]
        rw [show (acc ++ [(mid, g mid)]).map Prod.fst =
          acc.map Prod.fst ++ [mid] by simp]
        rw [dedupFirstAux_congr rest (acc.map Prod.fst ++ [mid])
          (mid :: acc.map Prod.fst) (by intro a; simp [or_comm])]
        simp

theorem loadAllMappings_fold (store : MappingStore) :
    ∀ (mapIds : List String) (acc mappings : List (String × ComplianceMapping)),
      mapIds.foldlM (loadStep store) acc = Except.ok mappings →
      (∀ mid ∈ mapIds, loadMapping store mid =
        Except.ok (loadedMapping store mid)) ∧
      mappings = mapIds.foldl
        (fun d mid => dictInsert d mid (loadedMapping store mid)) acc := by
  intro mapIds
  induction mapIds with
  | nil =>
      intro acc mappings h
      rw [List.foldlM_nil] at h
      injection h with h
      exact ⟨fun mid hmid => absurd hmid (by simp), by rw [← h, List.foldl_nil]⟩
  | cons mid rest ih =>
      intro acc mappings h
      rw [List.foldlM_cons] at h
      cases hload : loadMapping store mid with
      | error e =>
          rw [show loadStep store acc mid = Except.error e by
            unfold loadStep; rw [hload, except_bind_err]] at h
          rw [except_bind_err] at h
          exact Except.noConfusion h
      | ok m =>
          have hm : loadedMapping store mid = m := by
            unfold loadedMapping; rw [hload]
          rw [show loadStep store acc mid =
            Except.ok (dictInsert acc mid m) by
              unfold loadStep; rw [hload, except_bind_ok]; rfl] at h
          rw [except_bind_ok] at h
          obtain ⟨hok, heq⟩ := ih (dictInsert acc mid m) mappings h
          refine ⟨fun mid2 hmid2 => ?_, ?_⟩
          · rcases List.mem_cons.mp hmid2 with h2 | h2
            · rw [h2, hload, hm]
            · exact hok mid2 h2
          · rw [heq, List.foldl_cons, hm]

theorem loadAllMappings_ok (store : MappingStore) (mapIds : List String)
    (mappings : List (String × ComplianceMapping))
    (h : loadAllMappings store mapIds = Except.ok mappings) :
    (∀ mid ∈ mapIds, loadMapping store mid =
      Except.ok (loadedMapping store mid)) ∧
    mappings = mappingsOf store mapIds := by
  obtain ⟨hok, heq⟩ := loadAllMappings_fold store mapIds [] mappings h
  refine ⟨hok, ?_⟩
  rw [heq, dictInsertFold (loadedMapping store) mapIds [] (by intro p hp; simp at hp)]
  simp [mappingsOf, dedupFirst]

theorem expectedRefs_eq (store : MappingStore) (mapIds : List String) (k : String)
    (hok : ∀ mid ∈ mapIds, loadMapping store mid =
      Except.ok (loadedMapping store mid)) :
    expectedRefs store mapIds k =
      (ctcGet (buildCheckToControls (mappingsOf store mapIds)) k).map
        refOfControl := by
  rw [buildCheckToControls_ctcGet]
  unfold expectedRefs mappingsOf
  rw [List.map_flatten, List.map_map, List.map_map]
  apply congrArg List.flatten
  apply List.map_congr_left
  intro mid hmid
  rw [hok mid (dedupFirst_subset mapIds mid hmid)]
  rw [Function.comp_apply, Function.comp_apply, List.map_map]
  apply List.map_congr_left
  intro rule _
  rfl

theorem expectedOverride_eq (store : MappingStore) (mapIds : List String)
    (k : String)
    (hok : ∀ mid ∈ mapIds, loadMapping store mid =
      Except.ok (loadedMapping store mid)) :
    expectedOverride store mapIds k =
      firstOverride
        (ctcGet (buildCheckToControls (mappingsOf store mapIds)) k) := by
  unfold expectedOverride firstOverride
  rw [buildCheckToControls_ctcGet]
  apply congrArg List.head?
  rw [List.filterMap_flatten, List.map_map]
  unfold mappingsOf
  rw [List.map_map]
  apply congrArg List.flatten
  apply List.map_congr_left
  intro mid hmid
  rw [Function.comp_apply, Function.comp_apply]
  rw [hok mid (dedupFirst_subset mapIds mid hmid)]
  rw [List.filterMap_map]
  rfl

theorem applyControlsStep_eq (st : List String × OCSFEnrichedFinding)
    (ci : ControlInfo) :
    applyControlsStep st ci =
      (if overrideTruthy ci.severity_override && !sevTruthy st.2.severity then
        (assignSeverity st.2 (ci.severity_override.getD "")).map
          (fun e2 => (st.1 ++ [refOfControl ci], e2))
      else Except.ok (st.1 ++ [refOfControl ci], st.2)) := by
  unfold applyControlsStep refOfControl
  split
  · cases hassign : assignSeverity st.2 (ci.severity_override.getD "") with
    | error e => rfl
    | ok e1 => rfl
  · rfl

theorem applyControls_fold_spec :
    ∀ (controls : List ControlInfo) (refs0 : List String)
      (e0 : OCSFEnrichedFinding) (refs : List String) (e2 : OCSFEnrichedFinding),
      controls.foldlM applyControlsStep (refs0, e0) = Except.ok (refs, e2) →
      refs = refs0 ++ controls.map refOfControl
      ∧ e2 = { e0 with severity := e2.severity }
      ∧ e2.severity = (if e0.severity.isSome then e0.severity
          else (firstOverride controls).bind sevOfString) := by
  intro controls
  induction controls with
  | nil =>
      intro refs0 e0 refs e2 h
      rw [List.foldlM_nil] at h
      have h2 : ((refs0, e0) : List String × OCSFEnrichedFinding) = (refs, e2) := by
        injection h
      injection h2 with hr he
      subst hr
      subst he
      refine ⟨by simp, rfl, ?_⟩
      cases hs : e0.severity <;> simp [hs, firstOverride]
  | cons ci rest ih =>
      intro refs0 e0 refs e2 h
      rw [List.foldlM_cons, applyControlsStep_eq] at h
      by_cases hcond :
          (overrideTruthy ci.severity_override && !sevTruthy e0.severity) = true
      · rw [if_pos hcond] at h
        obtain ⟨hov, hsevf⟩ := Bool.and_eq_true_iff.mp hcond
        have hnone : e0.severity = none := by
          have : sevTruthy e0.severity = false := by
            cases hh : sevTruthy e0.severity
            · rfl
            · rw [hh] at hsevf; exact absurd hsevf (by decide)
          unfold sevTruthy at this
          exact Option.not_isSome_iff_eq_none.mp (by rw [this]; exact Bool.noConfusion)
        obtain ⟨o, ho, hone⟩ : ∃ o, ci.severity_override = some o ∧ o ≠ "" := by
          cases hsv : ci.severity_override with
          | none => rw [hsv] at hov; exact absurd hov (by simp [overrideTruthy])
          | some o =>
              rw [hsv] at hov
              refine ⟨o, rfl, ?_⟩
              simpa [overrideTruthy] using hov
        cases hparse : sevOfString (ci.severity_override.getD "") with
        | none =>
            rw [show assignSeverity e0 (ci.severity_override.getD "") =
                Except.error MapErr.validationError by
              unfold assignSeverity; rw [hparse]] at h
            rw [show ((Except.error MapErr.validationError :
                Except MapErr OCSFEnrichedFinding).map
                (fun e2 => (refs0 ++ [refOfControl ci], e2))) =
                Except.error MapErr.validationError from rfl] at h
            rw [except_bind_err] at h
            exact Except.noConfusion h
        | some s =>
            rw [show assignSeverity e0 (ci.severity_override.getD "") =
                Except.ok { e0 with severity := some s } by
              unfold assignSeverity; rw [hparse]] at h
            rw [show ((Except.ok { e0 with severity := some s } :
                Except MapErr OCSFEnrichedFinding).map
                (fun e2 => (refs0 ++ [refOfControl ci], e2))) =
                Except.ok (refs0 ++ [refOfControl ci],
                  { e0 with severity := some s }) from rfl] at h
            rw [except_bind_ok] at h
            obtain ⟨hrefs, hframe, hsev⟩ := ih _ _ _ _ h
            refine ⟨by rw [hrefs]; simp, ?_, ?_⟩
            · exact hframe
            · rw [hnone]
              simp only [Option.isSome_none, Bool.false_eq_true, if_false]
              have hpick : overridePick ci = some o := by
                simp [overridePick, ho, hone]
              rw [show firstOverride (ci :: rest) = some o by
                unfold firstOverride
                rw [List.filterMap_cons_some hpick]  -- hmm name check
                rfl]
              have hgd : ci.severity_override.getD "" = o := by rw [ho]; rfl
              rw [hgd] at hparse
              rw [Option.some_bind, hparse]
              rw [hsev]
              simp
      · rw [if_neg hcond, except_bind_ok] at h
        obtain ⟨hrefs, hframe, hsev⟩ := ih _ _ _ _ h
        refine ⟨by rw [hrefs]; simp, hframe, ?_⟩
        by_cases hs : e0.severity.isSome = true
        · rw [if_pos hs] at hsev ⊢
          exact hsev
        · rw [if_neg hs] at hsev ⊢
          have hsevf : sevTruthy e0.severity = false := by
            unfold sevTruthy
            cases hh : e0.severity.isSome
            · rfl
            · exact absurd hh hs
          have hov : overrideTruthy ci.severity_override = false := by
            cases hoo : overrideTruthy ci.severity_override
            · rfl
            · exfalso
              apply hcond
              rw [hoo, hsevf]
              rfl
          have hpick : overridePick ci = none := by
            unfold overridePick
            cases hsv : ci.severity_override with
            | none => rfl
            | some s0 =>
                rw [hsv] at hov
                have : s0 = "" := by simpa [overrideTruthy] using hov
                simp [this]
          rw [show firstOverride (ci :: rest) = firstOverride rest by
            unfold firstOverride
            rw [List.filterMap_cons_none hpick]]  -- hmm name check
          exact hsev

theorem enrichWithControls_none (enr : OCSFEnrichedFinding) :
    enrichWithControls enr none = Except.ok enr := rfl

theorem enrichWithControls_some (enr : OCSFEnrichedFinding)
    (controls : List ControlInfo) :
    enrichWithControls enr (some controls) =
      applyControls controls enr >>=
        (fun p => Except.ok { p.2 with framework_refs := p.1 }) := rfl

theorem enrichFinding_spec (ctc : List (String × List ControlInfo))
    (f : OCSFFinding) (e : OCSFEnrichedFinding)
    (h : enrichFinding ctc f = Except.ok e) :
    e = { toOCSFFinding := { f with severity := e.severity },
          framework_refs := e.framework_refs }
    ∧ e.framework_refs =
        (if checkIdTruthy f.check_id then
          (ctcGet ctc (f.product ++ ":" ++ f.check_id.getD "")).map refOfControl
        else [])
    ∧ e.severity =
        (if f.severity.isSome then f.severity
         else if checkIdTruthy f.check_id then
           (firstOverride
             (ctcGet ctc (f.product ++ ":" ++ f.check_id.getD ""))).bind
             sevOfString
         else none) := by
  unfold enrichFinding at h
  cases hck : checkIdTruthy f.check_id with
  | false =>
      rw [hck] at h
      simp only [Bool.false_eq_true, if_false] at h
      injection h with h
      subst h
      refine ⟨rfl, by simp [toEnriched], ?_⟩
      show f.severity = _
      cases hs : f.severity <;> simp [hs]
  | true =>
      rw [hck] at h
      simp only [if_true] at h
      cases hlk : lookupPairs ctc (f.product ++ ":" ++ f.check_id.getD "") with
      | none =>
          rw [hlk, enrichWithControls_none] at h
          injection h with h
          subst h
          refine ⟨rfl, ?_, ?_⟩
          · simp [ctcGet, hlk, toEnriched]
          · show f.severity = _
            cases hs : f.severity <;>
              simp [hs, ctcGet, hlk, firstOverride]
      | some controls =>
          rw [hlk, enrichWithControls_some] at h
          cases happ : applyControls controls (toEnriched f) with
          | error err =>
              rw [happ, except_bind_err] at h
              exact Except.noConfusion h
          | ok p =>
              obtain ⟨refs1, e1⟩ := p
              rw [happ, except_bind_ok] at h
              injection h with h
              subst h
              unfold applyControls at happ
              obtain ⟨hrefs, hframe, hsev⟩ :=
                applyControls_fold_spec controls [] (toEnriched f) refs1 e1 happ
              refine ⟨?_, ?_, ?_⟩
              · conv_lhs => rw [hframe]
                rfl
              · show refs1 = _
                simp [hrefs, ctcGet, hlk]
              · show e1.severity = _
                rw [hsev]
                have hts : (toEnriched f).severity = f.severity := rfl
                rw [hts]
                simp [ctcGet, hlk]

theorem mapM_ok_index {α β : Type} (g : α → Except MapErr β) :
    ∀ (xs : List α) (ys : List β), xs.mapM g = Except.ok ys →
      ys.length = xs.length ∧
      ∀ (i : Nat) (hi : i < xs.length) (hy : i < ys.length),
        g (xs.get ⟨i, hi⟩) = Except.ok (ys.get ⟨i, hy⟩) := by
  intro xs
  induction xs with
  | nil =>
      intro ys h
      rw [List.mapM_nil] at h
      injection h with h
      subst h
      exact ⟨rfl, fun i hi => absurd hi (by simp)⟩
  | cons x rest ih =>
      intro ys h
      rw [List.mapM_cons] at h
      cases hx : g x with
      | error e =>
          rw [hx, except_bind_err] at h
          exact Except.noConfusion h
      | ok y =>
          rw [hx, except_bind_ok] at h
          cases hrest : rest.mapM g with
          | error e =>
              rw [hrest, except_bind_err] at h
              exact Except.noConfusion h
          | ok ys1 =>
              rw [hrest, except_bind_ok] at h
              injection h with h
              subst h
              obtain ⟨hlen, hidx⟩ := ih ys1 hrest
              refine ⟨by simp [hlen], ?_⟩
              intro i hi hy
              cases i with
              | zero => simpa using hx
              | succ j =>
                  have hj : j < rest.length := by
                    simpa using hi
                  have hj2 : j < ys1.length := by
                    simpa using hy
                  simpa using hidx j hj hj2

theorem applyMapping_ok (store : MappingStore) (findings : List OCSFFinding)
    (mapIds : List String) (out : List OCSFEnrichedFinding)
    (h : applyMapping store findings mapIds = Except.ok out) :
    (∀ mid ∈ mapIds, loadMapping store mid =
      Except.ok (loadedMapping store mid)) ∧
    findings.mapM
      (enrichFinding (buildCheckToControls (mappingsOf store mapIds))) =
      Except.ok out := by
  unfold applyMapping at h
  cases hload : loadAllMappings store mapIds with
  | error e =>
      rw [hload, except_bind_err] at h
      exact Except.noConfusion h
  | ok mappings =>
      rw [hload, except_bind_ok] at h
      obtain ⟨hok, heq⟩ := loadAllMappings_ok store mapIds mappings hload
      rw [heq] at h
      exact ⟨hok, h⟩

/-- C1, amended: for every findings list and every rule-set id list
that loads successfully, each output finding's framework_refs is the
sequence "id:control", one per rule whose source equals
product:check_id, ordered by rule-set position in the caller-supplied
id list (duplicated ids applied once, at first position, as keyed dict
insertion effects) and, within a rule set, by rule position in file
order; when check_id is unset, empty (the code tests truthiness, so an
empty-string check_id also counts as unset), or when no rule matches,
framework_refs is the empty list, never null (by type). -/
theorem c1_framework_refs :
    ∀ (store : MappingStore) (findings : List OCSFFinding)
      (mapIds : List String) (out : List OCSFEnrichedFinding),
      applyMapping store findings mapIds = Except.ok out →
      out.length = findings.length ∧
      ∀ (i : Nat) (hi : i < findings.length) (ho : i < out.length),
        (out.get ⟨i, ho⟩).framework_refs =
          (match (findings.get ⟨i, hi⟩).check_id with
           | none => []
           | some cid =>
               if cid = "" then []
               else expectedRefs store mapIds
                 ((findings.get ⟨i, hi⟩).product ++ ":" ++ cid)) := by
  intro store findings mapIds out h
  obtain ⟨hok, hmap⟩ := applyMapping_ok store findings mapIds out h
  obtain ⟨hlen, hidx⟩ := mapM_ok_index _ findings out hmap
  refine ⟨hlen, ?_⟩
  intro i hi ho
  obtain ⟨hframe, hrefs, hsev⟩ := enrichFinding_spec _ _ _ (hidx i hi ho)
  cases hcid : (findings.get ⟨i, hi⟩).check_id with
  | none =>
      rw [hrefs, hcid]
      simp [checkIdTruthy]
  | some cid =>
      have hmatch : (match some cid with
          | none => ([] : List String)
          | some cid2 =>
              if cid2 = "" then []
              else expectedRefs store mapIds
                ((findings.get ⟨i, hi⟩).product ++ ":" ++ cid2)) =
          (if cid = "" then []
           else expectedRefs store mapIds
             ((findings.get ⟨i, hi⟩).product ++ ":" ++ cid)) := rfl
      rw [hmatch, hrefs, hcid]
      by_cases hne : cid = ""
      · rw [if_pos hne]
        subst hne
        simp [checkIdTruthy]
      · rw [if_neg hne, expectedRefs_eq store mapIds _ hok]
        simp [checkIdTruthy, hne]

/-- C2, amended: severity enrichment applies the first truthy override
among the matching rules, in match order, only when the severity was
unset, and never modifies an already-set severity (given overrides
high then critical in match order the result parses high); a finding
whose check_id is null or empty is treated as having no matching rules
(the code tests truthiness of check_id), so its unset severity stays
null. -/
theorem c2_severity_override :
    ∀ (store : MappingStore) (findings : List OCSFFinding)
      (mapIds : List String) (out : List OCSFEnrichedFinding),
      applyMapping store findings mapIds = Except.ok out →
      ∀ (i : Nat) (hi : i < findings.length) (ho : i < out.length),
        ((findings.get ⟨i, hi⟩).severity.isSome = true →
          (out.get ⟨i, ho⟩).severity = (findings.get ⟨i, hi⟩).severity)
        ∧ ((findings.get ⟨i, hi⟩).severity = none →
            checkIdTruthy (findings.get ⟨i, hi⟩).check_id = true →
            (out.get ⟨i, ho⟩).severity =
              (expectedOverride store mapIds
                ((findings.get ⟨i, hi⟩).product ++ ":" ++
                  (findings.get ⟨i, hi⟩).check_id.getD "")).bind sevOfString)
        ∧ ((findings.get ⟨i, hi⟩).severity = none →
            checkIdTruthy (findings.get ⟨i, hi⟩).check_id = false →
            (out.get ⟨i, ho⟩).severity = none) := by
  intro store findings mapIds out h i hi ho
  obtain ⟨hok, hmap⟩ := applyMapping_ok store findings mapIds out h
  obtain ⟨hlen, hidx⟩ := mapM_ok_index _ findings out hmap
  obtain ⟨hframe, hrefs, hsev⟩ := enrichFinding_spec _ _ _ (hidx i hi ho)
  refine ⟨fun hs => ?_, fun hs hck => ?_, fun hs hck => ?_⟩
  · rw [hsev, if_pos hs]
  · rw [hsev, hs]
    rw [if_neg (by simp)]
    rw [if_pos hck]
    rw [expectedOverride_eq store mapIds _ hok]
  · rw [hsev, hs]
    rw [if_neg (by simp)]
    rw [hck]
    simp

/-- C10: enrichment returns one output per input, in order; every
canonical field except severity is copied unchanged, and the
enrichment-only fields carry their defaults except framework_refs. -/
theorem c10_enrichment_frame :
    ∀ (store : MappingStore) (findings : List OCSFFinding)
      (mapIds : List String) (out : List OCSFEnrichedFinding),
      applyMapping store findings mapIds = Except.ok out →
      out.length = findings.length ∧
      ∀ (i : Nat) (hi : i < findings.length) (ho : i < out.length),
        out.get ⟨i, ho⟩ =
          { toOCSFFinding :=
              { findings.get ⟨i, hi⟩ with
                  severity := (out.get ⟨i, ho⟩).severity },
            framework_refs := (out.get ⟨i, ho⟩).framework_refs } := by
  intro store findings mapIds out h
  obtain ⟨hok, hmap⟩ := applyMapping_ok store findings mapIds out h
  obtain ⟨hlen, hidx⟩ := mapM_ok_index _ findings out hmap
  refine ⟨hlen, ?_⟩
  intro i hi ho
  exact (enrichFinding_spec _ _ _ (hidx i hi ho)).1

/-- C8: enrichment is idempotent on framework_refs: enriching the
canonical projections of an enriched batch with the same rule-set ids
reproduces the same framework_refs, in order and content. -/
theorem c8_enrich_idempotent :
    ∀ (store : MappingStore) (mapIds : List String)
      (findings : List OCSFFinding) (out out2 : List OCSFEnrichedFinding),
      applyMapping store findings mapIds = Except.ok out →
      applyMapping store (out.map (fun e => e.toOCSFFinding)) mapIds =
        Except.ok out2 →
      out2.map (fun e => e.framework_refs) =
        out.map (fun e => e.framework_refs) := by
  intro store mapIds findings out out2 h1 h2
  obtain ⟨hok1, hmap1⟩ := applyMapping_ok store findings mapIds out h1
  obtain ⟨hok2, hmap2⟩ := applyMapping_ok store _ mapIds out2 h2
  obtain ⟨hlen1, hidx1⟩ := mapM_ok_index _ _ _ hmap1
  obtain ⟨hlen2, hidx2⟩ := mapM_ok_index _ _ _ hmap2
  have hlen2m : out2.length = out.length := by simpa using hlen2
  apply List.ext_get (by simp [hlen2m])
  intro i h1i h2i
  have hi2 : i < out2.length := by simpa using h1i
  have hio : i < out.length := by simpa using h2i
  have hifnd : i < findings.length := by rw [← hlen1]; exact hio
  have himap : i < (out.map (fun e => e.toOCSFFinding)).length := by
    simpa using hio
  obtain ⟨hframe1, hrefs1, hsev1⟩ := enrichFinding_spec _ _ _ (hidx1 i hifnd hio)
  obtain ⟨hframe2, hrefs2, hsev2⟩ := enrichFinding_spec _ _ _ (hidx2 i himap hi2)
  have hbase : (out.map (fun e => e.toOCSFFinding)).get ⟨i, himap⟩ =
      (out.get ⟨i, hio⟩).toOCSFFinding := by simp
  have hbase2 : (out.get ⟨i, hio⟩).toOCSFFinding =
      { findings.get ⟨i, hifnd⟩ with
          severity := (out.get ⟨i, hio⟩).severity } := by
    conv_lhs => rw [hframe1]
  rw [hbase, hbase2] at hrefs2
  have hg2 : (out2.map (fun e => e.framework_refs)).get ⟨i, h1i⟩ =
      (out2.get ⟨i, hi2⟩).framework_refs := by simp
  have hg1 : (out.map (fun e => e.framework_refs)).get ⟨i, h2i⟩ =
      (out.get ⟨i, hio⟩).framework_refs := by simp
  rw [hg2, hg1, hrefs2, hrefs1]

/-- A rule set definition with two rules matching source p:c, the first
overriding severity high, the second critical. -/
def w1map : JValue := JValue.obj
  [("map_id", JValue.str "rs"), ("name", JValue.str "n"),
   ("version", JValue.str "1"), ("description", JValue.str "d"),
   ("framework_type", JValue.str "cis"),
   ("rules", JValue.arr
     [JValue.obj [("source", JValue.str "p:c"), ("target", JValue.str "T1"),
        ("title", JValue.str "t1"), ("description", JValue.str "d1"),
        ("severity", JValue.str "high")],
      JValue.obj [("source", JValue.str "p:c"), ("target", JValue.str "T2"),
        ("title", JValue.str "t2"), ("description", JValue.str "d2"),
        ("severity", JValue.str "critical")]])]

/-- A store holding the single rule set rs. -/
def w1store : MappingStore := [("rs", YamlData.parsed w1map)]

/-- A canonical finding with product p, check_id c and unset severity. -/
def w1finding : OCSFFinding :=
  { time := 0, provider := Provider.aws, product := "p", check_id := some "c" }

/-- The finding enrichment produces for w1finding under w1store. -/
def w1out : OCSFEnrichedFinding :=
  { toOCSFFinding := { w1finding with severity := some Severity.high },
    framework_refs := ["rs:T1", "rs:T2"] }

/-- Witness for C1: the concrete enrichment run on w1store yields
exactly the expected refs for source key p:c. -/
theorem c1_framework_refs_witness :
    w1out.framework_refs =
      (if ("c" : String) = "" then []
       else expectedRefs w1store ["rs"] ("p" ++ ":" ++ "c")) :=
  (c1_framework_refs w1store [w1finding] ["rs"] [w1out]
    (by rfl)).2 0 (by decide) (by decide)

/-- A rule set whose single rule has source "p:", the source key a
finding with product p and empty-string check_id would produce; the
rule carries a high severity override. -/
def e1map : JValue := JValue.obj
  [("map_id", JValue.str "rs"), ("name", JValue.str "n"),
   ("version", JValue.str "1"), ("description", JValue.str "d"),
   ("framework_type", JValue.str "cis"),
   ("rules", JValue.arr
     [JValue.obj [("source", JValue.str "p:"), ("target", JValue.str "T1"),
        ("title", JValue.str "t1"), ("description", JValue.str "d1"),
        ("severity", JValue.str "high")]])]

/-- A store holding only that rule set. -/
def e1store : MappingStore := [("rs", YamlData.parsed e1map)]

/-- A canonical finding with product p, empty-string check_id and unset
severity: its claim-side source key p: matches the rule above. -/
def e1finding : OCSFFinding :=
  { time := 0, provider := Provider.aws, product := "p", check_id := some "" }

/-- Counterexample to C1 as frozen: a finding with an empty-string
check_id has a rule whose source equals product + ":" + check_id, so
the claim predicts framework_refs ["rs:T1"], yet the code tests
truthiness of check_id and skips enrichment, leaving []. -/
theorem c1_counterexample :
    applyMapping e1store [e1finding] ["rs"] =
      Except.ok [{ toOCSFFinding := e1finding }]
    ∧ ({ toOCSFFinding := e1finding } : OCSFEnrichedFinding).framework_refs = []
    ∧ expectedRefs e1store ["rs"]
        (e1finding.product ++ ":" ++ e1finding.check_id.getD "") = ["rs:T1"]
    ∧ ([] : List String) ≠ ["rs:T1"] :=
  ⟨by rfl, rfl, by rfl, by decide⟩

/-- Counterexample to C2 as frozen: the same finding has unset severity
and one matching rule (its source equals product + ":" + check_id)
whose override parses to high, so the claim predicts severity high,
yet the code treats the empty-string check_id as unset and leaves
severity null. -/
theorem c2_counterexample :
    applyMapping e1store [e1finding] ["rs"] =
      Except.ok [{ toOCSFFinding := e1finding }]
    ∧ e1finding.severity = none
    ∧ ({ toOCSFFinding := e1finding } : OCSFEnrichedFinding).severity = none
    ∧ (expectedOverride e1store ["rs"]
        (e1finding.product ++ ":" ++ e1finding.check_id.getD "")).bind sevOfString
        = some Severity.high
    ∧ (none : Option Severity) ≠ some Severity.high :=
  ⟨by rfl, rfl, rfl, by rfl, by decide⟩

/-- Witness for C2: on the concrete run the unset severity becomes the
parsed first override, which is high (not critical). -/
theorem c2_severity_override_witness :
    w1out.severity =
      (expectedOverride w1store ["rs"]
        (w1finding.product ++ ":" ++ w1finding.check_id.getD "")).bind sevOfString
    ∧ w1out.severity = some Severity.high :=
  ⟨((c2_severity_override w1store [w1finding] ["rs"] [w1out] (by rfl)
      0 (by decide) (by decide)).2.1 (by rfl) (by rfl)), by rfl⟩

/-- Witness for C10 on the concrete run. -/
theorem c10_enrichment_frame_witness :
    ([w1out] : List OCSFEnrichedFinding).length =
      ([w1finding] : List OCSFFinding).length
    ∧ w1out =
        { toOCSFFinding := { w1finding with severity := w1out.severity },
          framework_refs := w1out.framework_refs } := by
  obtain ⟨hlen, hidx⟩ :=
    c10_enrichment_frame w1store [w1finding] ["rs"] [w1out] (by rfl)
  exact ⟨hlen, hidx 0 (by decide) (by decide)⟩

/-- Witness for C8: re-enriching the canonical projection of the
concrete output with the same id reproduces the refs. -/
theorem c8_enrich_idempotent_witness :
    ([w1out] : List OCSFEnrichedFinding).map (fun e => e.framework_refs) =
      [["rs:T1", "rs:T2"]] :=
  ((c8_enrich_idempotent w1store ["rs"] [w1finding] [w1out] [w1out]
    (by rfl) (by rfl)).trans (by rfl)).trans (by rfl)

/-! Claim C6. -/

theorem mem_collectFrameworks (findings : List SummaryFinding) (x : String) :
    x ∈ collectFrameworks findings ↔
      ∃ f ∈ findings, ∃ ref ∈ f.refs,
        refHasColon ref = true ∧ beforeFirstColon ref = x := by
  unfold collectFrameworks
  rw [List.mem_flatten]
  constructor
  · rintro ⟨l, hl, hx⟩
    rw [List.mem_map] at hl
    obtain ⟨f, hf, hfl⟩ := hl
    subst hfl
    refine ⟨f, hf, ?_⟩
    by_cases hc : (f.hasRefs && !f.refs.isEmpty) = true
    · rw [if_pos hc] at hx
      rw [List.mem_map] at hx
      obtain ⟨ref, href, hrefx⟩ := hx
      rw [List.mem_filter] at href
      exact ⟨ref, href.1, href.2, hrefx⟩
    · rw [if_neg hc] at hx
      exact absurd hx (by simp)
  · rintro ⟨f, hf, ref, href, hcol, hbefore⟩
    refine ⟨(if f.hasRefs && !f.refs.isEmpty then
        (f.refs.filter refHasColon).map beforeFirstColon else []),
      List.mem_map_of_mem _ hf, ?_⟩
    have hcase : (f.hasRefs && !f.refs.isEmpty) = true := by
      cases f with
      | canonical g => exact absurd href (by simp [SummaryFinding.refs])
      | enriched g =>
          have hne : g.framework_refs ≠ [] :=
            List.ne_nil_of_mem (by simpa [SummaryFinding.refs] using href)
          simp [SummaryFinding.hasRefs, SummaryFinding.refs, hne]
    rw [if_pos hcase, List.mem_map]
    exact ⟨ref, List.mem_filter.mpr ⟨href, hcol⟩, hbefore⟩

/-- C6, amended: when the findings list is nonempty and its first
member is an enriched finding (has the framework_refs attribute),
frameworks_covered is the sorted duplicate-free list of the framework
ids taken from every finding whose framework_refs entries contain a
colon (prefix before the first colon; entries without a colon are
ignored, canonical findings contribute nothing); when the list is empty
or its first member is not enriched, frameworks_covered is empty even
if later findings carry refs. -/
theorem c6_frameworks_covered :
    ∀ findings : List SummaryFinding,
      (findings = [] →
        (generateFindingSummary findings).frameworks_covered = [])
      ∧ (∀ (f0 : SummaryFinding) (rest : List SummaryFinding),
          findings = f0 :: rest → f0.hasRefs = false →
          (generateFindingSummary findings).frameworks_covered = [])
      ∧ (∀ (f0 : SummaryFinding) (rest : List SummaryFinding),
          findings = f0 :: rest → f0.hasRefs = true →
          List.Sorted (fun a b : String => a ≤ b)
            (generateFindingSummary findings).frameworks_covered
          ∧ (generateFindingSummary findings).frameworks_covered.Nodup
          ∧ ∀ x : String,
              x ∈ (generateFindingSummary findings).frameworks_covered ↔
                ∃ f ∈ findings, ∃ ref ∈ f.refs,
                  refHasColon ref = true ∧ beforeFirstColon ref = x) := by
  intro findings
  refine ⟨fun hnil => ?_, fun f0 rest hcons h0 => ?_, fun f0 rest hcons h0 => ?_⟩
  · subst hnil
    rfl
  · subst hcons
    show (if f0.hasRefs = true then
        sortedDistinct (collectFrameworks (f0 :: rest)) else []) = []
    rw [h0]
    rfl
  · subst hcons
    have hfc : (generateFindingSummary (f0 :: rest)).frameworks_covered =
        sortedDistinct (collectFrameworks (f0 :: rest)) := by
      show (if f0.hasRefs = true then
          sortedDistinct (collectFrameworks (f0 :: rest)) else []) = _
      rw [h0]
      rfl
    rw [hfc]
    unfold sortedDistinct
    refine ⟨List.sorted_insertionSort _ _, ?_, ?_⟩
    · rw [List.Perm.nodup_iff (List.perm_insertionSort _ _)]
      exact List.nodup_dedup _
    · intro x
      rw [(List.perm_insertionSort (fun a b : String => a ≤ b) _).mem_iff,
        List.mem_dedup]
      exact mem_collectFrameworks (f0 :: rest) x

/-- A canonical finding carrying no refs attribute. -/
def c6plain : OCSFFinding := { time := 0, provider := Provider.aws, product := "p" }

/-- An enriched finding carrying one framework ref. -/
def c6enr : OCSFEnrichedFinding :=
  { toOCSFFinding := { time := 0, provider := Provider.aws, product := "p" },
    framework_refs := ["cis:1.1"] }

/-- Counterexample to C6 as stated: a mixed list whose first member is
canonical yields empty frameworks_covered even though a later finding
carries a ref, while the claim predicts the sorted distinct ids of all
refs. -/
theorem c6_frameworks_covered_counterexample :
    (generateFindingSummary
      [SummaryFinding.canonical c6plain,
       SummaryFinding.enriched c6enr]).frameworks_covered = []
    ∧ claimFrameworksCovered
        [SummaryFinding.canonical c6plain, SummaryFinding.enriched c6enr] =
        ["cis"]
    ∧ ([] : List String) ≠ ["cis"] :=
  ⟨rfl, by rfl, by decide⟩

/-- Witness for C6 at a list whose first member is enriched. -/
theorem c6_frameworks_covered_witness :
    (generateFindingSummary
      [SummaryFinding.enriched c6enr]).frameworks_covered.Nodup :=
  ((c6_frameworks_covered [SummaryFinding.enriched c6enr]).2.2
    (SummaryFinding.enriched c6enr) [] rfl rfl).2.1

end CSKit
